import Mathlib

/-!
Verification development for the aimem semantic memory engine
(Go sources under internal/server, internal/logger, internal/storage,
the chunker and summarizer packages, and internal/analyzer).

Modelling conventions, used uniformly below:

* Go strings are modelled as `List Char`; `len(s)` is the byte length in Go
  and the list length here — these agree on the ASCII inputs used throughout.
* Go `float64` arithmetic is modelled exactly over `ℚ`.  Every concrete
  input evaluated below is chosen so that the quantities flowing into a Go
  `int(...)` truncation or `math.Ceil` sit at distance at least 1/40 from
  the nearest rounding boundary, far outside the 2^-52 relative error of
  the actual float computation, so the rational model and the float
  program agree on every branch and every rounded value exercised.
* Go `int` is modelled as `ℤ` (no value in range ever approaches 2^63).
* `sort.Slice` is deterministic but unstable; it is modelled with the
  deterministic comparison sort `sortBy` under the same comparator.  No
  theorem below depends on the relative order of comparator-equal
  elements.
* Chunk ids (UUID strings in Go) are modelled as `ℕ`; only their equality
  is ever consulted.
-/

attribute [local semireducible] Rat.mul Rat.add Rat.sub Rat.inv

namespace Aimem

/-- Go strings, byte-for-byte on the ASCII inputs used in this file. -/
abbrev Str := List Char

/-- Coerce a Lean string literal to the `List Char` model. -/
def str (s : String) : Str := s.data

/-- `unicode.IsSpace` restricted to ASCII, as used by `strings.TrimSpace`
and `strings.Fields`: space, TAB, LF, VT, FF, CR. -/
def isSpaceTrim (c : Char) : Bool :=
  c = ' ' || c = '\t' || c = '\n' || c = '\r' || c = Char.ofNat 11 || c = Char.ofNat 12

/-- The RE2 character class `\s` (= `[\t\n\f\r ]`, no VT), used by the
sentence-splitting and content-type regexes. -/
def isSpaceRe (c : Char) : Bool :=
  c = ' ' || c = '\t' || c = '\n' || c = '\r' || c = Char.ofNat 12

/-- The RE2 character class `\w` (= `[0-9A-Za-z_]`). -/
def isWordRe (c : Char) : Bool :=
  (('0' ≤ c && c ≤ '9') || ('a' ≤ c && c ≤ 'z') || ('A' ≤ c && c ≤ 'Z') || c = '_')

/-- `strings.ToLower`, ASCII case (all content in this file is ASCII). -/
def toLowerStr (l : Str) : Str := l.map Char.toLower

/-- `strings.TrimSpace`. -/
def trimSpace (l : Str) : Str :=
  ((l.dropWhile isSpaceTrim).reverse.dropWhile isSpaceTrim).reverse

/-- `strings.Contains(hay, pat)`. -/
def containsSub : Str → Str → Bool
  | [], pat => pat.isPrefixOf []
  | hay@(_ :: t), pat => pat.isPrefixOf hay || containsSub t pat

/-- `strings.HasPrefix`. -/
def hasPrefixStr (l p : Str) : Bool := p.isPrefixOf l

/-- `strings.HasSuffix`. -/
def hasSuffixStr (l p : Str) : Bool := p.reverse.isPrefixOf l.reverse

/-- `strings.LastIndex(s, " ")` specialised to a single-character needle:
index of the last occurrence of `c`, or `-1`. -/
def lastIndexOfChar (l : Str) (c : Char) : ℤ :=
  match l.reverse.findIdx? (fun d => d = c) with
  | some i => (l.length : ℤ) - 1 - i
  | none => -1

/-- Recursion of `strings.Fields`, made structural on a fuel argument
(initialised to the string length, which bounds the recursion depth) so
that the kernel can evaluate it. -/
def fieldsGoF : ℕ → Str → List Str
  | 0, _ => []
  | _, [] => []
  | fuel + 1, c :: t =>
    if isSpaceTrim c then fieldsGoF fuel t
    else (c :: t.takeWhile (fun d => !isSpaceTrim d)) :: fieldsGoF fuel (t.dropWhile (fun d => !isSpaceTrim d))

/-- `strings.Fields`: split around runs of white space (ASCII). -/
def fieldsGo (l : Str) : List Str := fieldsGoF l.length l

/-- `strings.Split(s, sep)` for a single-character separator. -/
def splitOnChar (sep : Char) : Str → List Str
  | [] => [[]]
  | c :: t =>
    if c = sep then [] :: splitOnChar sep t
    else match splitOnChar sep t with
      | [] => [[c]]
      | p :: ps => (c :: p) :: ps

/-- Go `int(x)` conversion from `float64`: truncation toward zero. -/
def goInt (q : ℚ) : ℤ := if 0 ≤ q then q.floor else -((-q).floor)

/-- Insertion step of the comparison sort used to model `sort.Slice`. -/
def insertSorted (lt : α → α → Bool) (x : α) : List α → List α
  | [] => [x]
  | y :: t => if lt x y then x :: y :: t else y :: insertSorted lt x t

/-- Deterministic comparison sort modelling Go's `sort.Slice` under the
same `less` comparator (`sort.Slice` is deterministic but unstable; no
theorem below depends on the relative order of comparator-equal
elements). -/
def sortBy (lt : α → α → Bool) : List α → List α
  | [] => []
  | x :: t => insertSorted lt x (sortBy lt t)

theorem insertSorted_length (lt : α → α → Bool) (x : α) (l : List α) :
    (insertSorted lt x l).length = l.length + 1 := by
  induction l with
  | nil => rfl
  | cons y t ih => simp only [insertSorted]; split <;> simp [ih]

theorem sortBy_length (lt : α → α → Bool) (l : List α) :
    (sortBy lt l).length = l.length := by
  induction l with
  | nil => rfl
  | cons x t ih => simp [sortBy, insertSorted_length, ih]

theorem insertSorted_perm (lt : α → α → Bool) (x : α) (l : List α) :
    (insertSorted lt x l).Perm (x :: l) := by
  induction l with
  | nil => simp [insertSorted]
  | cons y t ih =>
    simp only [insertSorted]
    split
    · exact List.Perm.refl _
    · exact List.Perm.trans (List.Perm.cons y ih) (List.Perm.swap x y t)

theorem sortBy_perm (lt : α → α → Bool) (l : List α) :
    (sortBy lt l).Perm l := by
  induction l with
  | nil => simp [sortBy]
  | cons x t ih => exact List.Perm.trans (insertSorted_perm lt x (sortBy lt t)) (List.Perm.cons x ih)

/-- `int(math.Ceil(x))` for the nonnegative values that occur here. -/
def goCeil (q : ℚ) : ℤ := q.ceil

/-! ## Data model (internal/types/types.go)

`handleStoreContext` and `handleCleanupSession` validate the `importance`
and `strategy` strings against exactly three values each before any chunk
is created or any cleanup runs, so both enumerations are modelled as
three-constructor inductives. -/

/-- `types.Importance` (low / medium / high). -/
inductive Importance | low | medium | high
deriving DecidableEq, Repr, Inhabited

/-- `types.CleanupStrategy` (ttl / lru / relevance). -/
inductive CleanupStrategy | ttl | lru | relevance
deriving DecidableEq, Repr

/-- `types.TaskType`. -/
inductive TaskType | analysis | development | debugging | refactoring | testing | deployment
deriving DecidableEq, Repr

/-- `types.SessionPhase`. -/
inductive SessionPhase | analysis | development | testing | deployment
deriving DecidableEq, Repr

/-- `types.MemoryStrategy`. -/
inductive MemoryStrategy | aggressive | balanced | conservative
deriving DecidableEq, Repr

/-- `types.ContextChunk`.  Time is measured in hours (`ℚ`): `timestamp` is
the creation instant, `ttl` the in-memory `time.Duration`.  `ttlDeadline`
models the `ttl` column of the `context_chunks` row (an absolute deadline
timestamp, or SQL NULL); `SearchByEmbedding` rebuilds the in-memory `ttl`
from it.  `embedding` is `none` for a Go nil slice. -/
structure ContextChunk where
  id : ℕ
  sessionId : ℕ
  content : Str
  summary : Str
  embedding : Option (List ℚ)
  relevance : ℚ
  timestamp : ℚ
  ttl : ℚ
  ttlDeadline : Option ℚ
  importance : Importance
deriving DecidableEq, Repr, Inhabited

/-! ## Retrieval scoring (internal/server/server.go:787-827) -/

/-- `calculateInitialRelevance` (server.go:788-799). -/
def calculateInitialRelevance : Importance → ℚ
  | .high => 9/10
  | .medium => 7/10
  | .low => 5/10

/-- The importance weight switch inside `calculateRetrievalScore`
(server.go:807-815); the Go switch has no default case and the server
only ever stores the three validated values, so the inductive is total. -/
def importanceWeight : Importance → ℚ
  | .high => 1
  | .medium => 7/10
  | .low => 3/10

/-- `calculateRetrievalScore` (server.go:802-827): combines the cosine
similarity with importance, recency and current relevance, then applies
`math.Min(score, 1.0)`.  `now` is the current time in hours. -/
def calculateRetrievalScore (now : ℚ) (similarity : ℚ) (chunk : ContextChunk) : ℚ :=
  let score := similarity * (6/10)
  let score := score + importanceWeight chunk.importance * (2/10)
  let ageHours := now - chunk.timestamp
  let recencyScore := max 0 (1 - ageHours / 168)
  let score := score + recencyScore * (1/10)
  let score := score + chunk.relevance * (1/10)
  min score 1

/-! ## Cleanup selection (internal/server/server.go:829-896) -/

/-- The append loop of `selectExpiredChunks` (server.go:854-868): collect
chunks whose TTL is positive and exceeded, stopping as soon as the
collection reaches `maxRemove`. -/
def selectExpiredGo (now : ℚ) (maxRemove : ℕ) : List ContextChunk → List ContextChunk → List ContextChunk
  | [], acc => acc
  | c :: rest, acc =>
    if 0 < c.ttl ∧ now - c.timestamp > c.ttl then
      if maxRemove ≤ (acc ++ [c]).length then acc ++ [c]
      else selectExpiredGo now maxRemove rest (acc ++ [c])
    else selectExpiredGo now maxRemove rest acc

/-- `selectExpiredChunks` (server.go:854-868). -/
def selectExpiredChunks (now : ℚ) (chunks : List ContextChunk) (maxRemove : ℕ) : List ContextChunk :=
  selectExpiredGo now maxRemove chunks []

/-- `selectLRUChunks` (server.go:871-882): sort ascending by timestamp
(`sort.Slice` with `Timestamp.Before`), keep the first `maxRemove`. -/
def selectLRUChunks (chunks : List ContextChunk) (maxRemove : ℕ) : List ContextChunk :=
  (sortBy (fun a b => a.timestamp < b.timestamp) chunks).take maxRemove

/-- `selectLowRelevanceChunks` (server.go:885-896): sort ascending by
relevance, keep the first `maxRemove`. -/
def selectLowRelevanceChunks (chunks : List ContextChunk) (maxRemove : ℕ) : List ContextChunk :=
  (sortBy (fun a b => a.relevance < b.relevance) chunks).take maxRemove

/-- `selectChunksForRemoval` (server.go:830-851).  Note the cap:
`maxRemove := len(chunks)/2`, bumped to `1` when the division yields `0`. -/
def selectChunksForRemoval (now : ℚ) (chunks : List ContextChunk) (strategy : CleanupStrategy) : List ContextChunk :=
  if chunks = [] then []
  else
    let maxRemove0 := chunks.length / 2
    let maxRemove := if maxRemove0 = 0 then 1 else maxRemove0
    match strategy with
    | .ttl => selectExpiredChunks now chunks maxRemove
    | .lru => selectLRUChunks chunks maxRemove
    | .relevance => selectLowRelevanceChunks chunks maxRemove

/-! ## Session scan (internal/storage/sqlite.go:285-381)

`NewStorage` always returns the SQLite backend.  `SearchByEmbedding`
first selects the session's rows with `ttl IS NULL OR ttl > now`, ordered
by `(relevance DESC, created_at DESC)`; the `rows` list below is that
already-ordered result set.  Rows without an embedding are skipped, the
rest are sorted by cosine similarity with the double swap loop of
sqlite.go:360-367, and the first `maxResults` survive. -/

/-- `cosineSimilaritySQLite(nil, e)` (sqlite.go:489-507): for a nil query
vector either the lengths differ (e ≠ []) or both norms are zero (e = []),
so the result is 0 on every branch. -/
def cosineSimilarityNil (_e : List ℚ) : ℚ := 0

/-- Inner loop of the similarity sort (sqlite.go:361-366): swap whenever
a later entry has strictly larger similarity.  Structural on a fuel
argument (which bounds `arr.size - j`) so the kernel can evaluate it. -/
def swapInnerF : ℕ → Array (ContextChunk × ℚ) → ℕ → ℕ → Array (ContextChunk × ℚ)
  | 0, arr, _, _ => arr
  | fuel + 1, arr, i, j =>
    if j < arr.size then
      if (arr[j]!).2 > (arr[i]!).2 then swapInnerF fuel (arr.swap! i j) i (j + 1)
      else swapInnerF fuel arr i (j + 1)
    else arr

/-- Inner loop of the similarity sort at full fuel. -/
def swapInner (arr : Array (ContextChunk × ℚ)) (i j : ℕ) : Array (ContextChunk × ℚ) :=
  swapInnerF (arr.size - j) arr i j

/-- Outer loop of the similarity sort (sqlite.go:360-367), fuelled the
same way. -/
def swapOuterF : ℕ → Array (ContextChunk × ℚ) → ℕ → Array (ContextChunk × ℚ)
  | 0, arr, _ => arr
  | fuel + 1, arr, i =>
    if i + 1 < arr.size then swapOuterF fuel (swapInner arr i (i + 1)) (i + 1)
    else arr

/-- Outer loop of the similarity sort at full fuel. -/
def swapOuter (arr : Array (ContextChunk × ℚ)) (i : ℕ) : Array (ContextChunk × ℚ) :=
  swapOuterF arr.size arr i

/-- Whether a stored row is visible to the scan query
(`ttl IS NULL OR ttl > CURRENT_TIMESTAMP`). -/
def rowVisible (now : ℚ) (c : ContextChunk) : Bool :=
  match c.ttlDeadline with
  | none => true
  | some d => now < d

/-- The in-memory chunk rebuilt from a row (sqlite.go:302-337):
`chunk.TTL = time.Until(ttlTime.Time)` when the column is non-NULL,
otherwise the zero duration. -/
def rowToChunk (now : ℚ) (c : ContextChunk) : ContextChunk :=
  { c with ttl := match c.ttlDeadline with
                  | some d => d - now
                  | none => 0 }

/-- `SearchByEmbedding(ctx, sessionID, nil, maxResults)`
(sqlite.go:285-381) with a nil query embedding, as called by
`retrieveContext`, `cleanupSession` and `applySmartMemoryStrategy`. -/
def searchByEmbeddingNil (now : ℚ) (rows : List ContextChunk) (maxResults : ℕ) : List ContextChunk :=
  let candidates := (rows.filter (rowVisible now)).map (rowToChunk now)
  let results := (candidates.filter (fun c => c.embedding ≠ none)).map
    (fun c => (c, cosineSimilarityNil (c.embedding.getD [])))
  let sorted := swapOuter results.toArray 0
  ((sorted.toList).take maxResults).map Prod.fst

/-! ## cleanup_session (internal/server/server.go:716-783) -/

/-- `mcp.CleanupSessionResult`. -/
structure CleanupSessionResult where
  success : Bool
  chunksRemoved : ℕ
  bytesFreed : ℤ
  strategy : CleanupStrategy
  remainingChunks : ℤ
deriving DecidableEq, Repr

/-- `cleanupSession` (server.go:716-783) over the session's stored rows.
`DeleteChunk` (sqlite.go:384-391) is an unconditional SQL DELETE that only
fails on a storage fault, so every delete succeeds in the model and the
removed count equals the selection size. -/
def cleanupSession (now : ℚ) (rows : List ContextChunk) (strategy : CleanupStrategy) : CleanupSessionResult :=
  let allChunks := searchByEmbeddingNil now rows 1000
  if allChunks = [] then
    { success := true, chunksRemoved := 0, bytesFreed := 0, strategy := strategy, remainingChunks := 0 }
  else
    let toRemove := selectChunksForRemoval now allChunks strategy
    let bytesFreed : ℤ := (toRemove.map (fun c => (c.content.length : ℤ))).sum
    let removed := toRemove.length
    { success := true, chunksRemoved := removed, bytesFreed := bytesFreed,
      strategy := strategy, remainingChunks := (allChunks.length : ℤ) - removed }

/-! ## Task-aware relevance (internal/server/server.go:1423-1482)

`calculateTaskAwareRelevance` iterates a Go `map[string]float64` of boost
keywords and applies the first entry, in map-iteration order, whose key is
contained in the lowercased content.  Go randomises map iteration order on
every `range`, so the enumeration order is an explicit parameter: a run of
the program corresponds to some permutation of the table. -/

/-- The task boost tables (server.go:1428-1449), in source order.  Note
the `development` entry `"API"`: the Go map key is upper case. -/
def taskBoostTable : TaskType → List (Str × ℚ)
  | .analysis =>
    [(str "architecture", 12/10), (str "structure", 11/10), (str "design", 11/10), (str "pattern", 11/10)]
  | .development =>
    [(str "function", 12/10), (str "method", 12/10), (str "implementation", 13/10),
     (str "API", 11/10), (str "code", 11/10)]
  | .debugging =>
    [(str "error", 13/10), (str "bug", 13/10), (str "issue", 12/10),
     (str "problem", 12/10), (str "fix", 11/10)]
  | _ => []

/-- The boost loop (server.go:1452-1460): multiply by the first table
entry, in enumeration order, whose keyword the lowercased content
contains, then `break`. -/
def applyFirstBoost (content : Str) (order : List (Str × ℚ)) (base : ℚ) : ℚ :=
  match order.find? (fun kb => containsSub (toLowerStr content) kb.1) with
  | some kb => base * kb.2
  | none => base

/-- The importance boost map (server.go:1463-1471). -/
def importanceBoost : Importance → ℚ
  | .high => 12/10
  | .medium => 1
  | .low => 8/10

/-- `calculateTaskAwareRelevance` (server.go:1424-1482), parametrised by
`order`, the iteration order of the task's boost map on this run. -/
def calculateTaskAwareRelevance (now : ℚ) (order : List (Str × ℚ)) (chunk : ContextChunk) : ℚ :=
  let base := applyFirstBoost chunk.content order chunk.relevance
  let base := base * importanceBoost chunk.importance
  let age := now - chunk.timestamp
  let base := if age < 1 then base * (11/10) else if age < 24 then base * (105/100) else base
  min base 1

/-- The ranking portion of `handleContextAwareRetrieve`
(server.go:1182-1189): recompute every chunk's relevance with
`calculateTaskAwareRelevance`, sort descending by it, and report the
chunk ids in order. -/
def contextAwareRank (now : ℚ) (order : List (Str × ℚ)) (chunks : List ContextChunk) : List ℕ :=
  let updated := chunks.map (fun c => { c with relevance := calculateTaskAwareRelevance now order c })
  let sorted := sortBy (fun a b => a.relevance > b.relevance) updated
  sorted.map (fun c => c.id)

/-! ## retrieve_context (internal/server/server.go:591-692) -/

/-- Error codes of `internal/errors` relevant here. -/
inductive ErrCode | chunking | embedding | summarization | storage
deriving DecidableEq, Repr

/-- `Service.GenerateEmbedding` (internal/analyzer/project.go:726-752):
rejects empty content, otherwise produces `model.Encode(content)`.
`encode` abstracts the deterministic hash model
(`generateSimpleEmbedding`, project.go:916-945), which never fails; the
content-keyed LRU cache returns exactly the value `encode` would, so it
is dropped from the model. -/
def generateEmbedding (encode : Str → List ℚ) (content : Str) : Except ErrCode (List ℚ) :=
  if content = [] then .error .embedding else .ok (encode content)

/-- `types.RetrievalResult`. -/
structure RetrievalResult where
  chunks : List ContextChunk
  totalScore : ℚ
deriving DecidableEq, Repr

/-- `retrieveContext` (server.go:591-692).  `cossim` abstracts
`Service.CosineSimilarity` (project.go:812-829), a pure function of the
query and chunk vectors whose numeric value none of the claims depend on
(`none` stands for a Go nil chunk embedding). -/
def retrieveContext (encode : Str → List ℚ) (cossim : List ℚ → Option (List ℚ) → ℚ)
    (now : ℚ) (rows : List ContextChunk) (query : Str) (maxChunks : ℕ) :
    Except ErrCode RetrievalResult :=
  match generateEmbedding encode query with
  | .error e => .error e
  | .ok queryEmbedding =>
    let allChunks := searchByEmbeddingNil now rows 1000
    if allChunks = [] then .ok { chunks := [], totalScore := 0 }
    else
      let scores := allChunks.map
        (fun c => (c, calculateRetrievalScore now (cossim queryEmbedding c.embedding) c))
      let sorted := sortBy (fun a b => a.2 > b.2) scores
      let top := sorted.take maxChunks
      let resultChunks := top.map (fun p => { p.1 with relevance := p.2 })
      .ok { chunks := resultChunks, totalScore := (top.map (fun p => p.2)).sum }

/-! ## smart_memory_manager (internal/server/server.go:1594-1805) -/

/-- `getCleanupRatio` (server.go:1671-1700); both map lookups always hit
for the validated enum values. -/
def getCleanupRatio (strategy : MemoryStrategy) (phase : SessionPhase) : ℚ :=
  match strategy, phase with
  | .aggressive, .analysis => 3/10
  | .aggressive, .development => 2/10
  | .aggressive, .testing => 4/10
  | .aggressive, .deployment => 1/10
  | .balanced, .analysis => 2/10
  | .balanced, .development => 1/10
  | .balanced, .testing => 25/100
  | .balanced, .deployment => 5/100
  | .conservative, .analysis => 1/10
  | .conservative, .development => 5/100
  | .conservative, .testing => 15/100
  | .conservative, .deployment => 0

/-- `calculateCleanupScore` (server.go:1785-1805). -/
def calculateCleanupScore (now : ℚ) (chunk : ContextChunk) : ℚ :=
  let score := (1 - chunk.relevance) * (4/10)
  let ageScore := min ((now - chunk.timestamp) / 24) 1
  let score := score + ageScore * (3/10)
  let imp : ℚ := match chunk.importance with
    | .high => 0
    | .medium => 5/10
    | .low => 1
  score + imp * (3/10)

/-- `selectAggressiveCleanup` (server.go:1703-1726). -/
def selectAggressiveCleanup (chunks : List ContextChunk) (maxRemove : ℕ) (preserveImportant : Bool) : List ContextChunk :=
  let candidates := chunks.filter (fun c => !(preserveImportant && c.importance = Importance.high))
  let sorted := sortBy
    (fun a b => if a.relevance ≠ b.relevance then a.relevance < b.relevance else a.timestamp < b.timestamp) candidates
  sorted.take maxRemove

/-- `selectBalancedCleanup` (server.go:1729-1755). -/
def selectBalancedCleanup (now : ℚ) (chunks : List ContextChunk) (maxRemove : ℕ) (preserveImportant : Bool) : List ContextChunk :=
  let candidates := chunks.filter (fun c =>
    !(preserveImportant && c.importance = Importance.high) &&
    !(c.importance = Importance.medium && now - c.timestamp < 1))
  let sorted := sortBy
    (fun a b => calculateCleanupScore now a < calculateCleanupScore now b) candidates
  sorted.take maxRemove

/-- `selectConservativeCleanup` (server.go:1758-1782). -/
def selectConservativeCleanup (now : ℚ) (chunks : List ContextChunk) (maxRemove : ℕ) (preserveImportant : Bool) : List ContextChunk :=
  let candidates := chunks.filter (fun c =>
    !(preserveImportant && c.importance ≠ Importance.low) &&
    (c.relevance < 3/10 && c.importance = Importance.low && now - c.timestamp > 24))
  let sorted := sortBy (fun a b => a.timestamp < b.timestamp) candidates
  sorted.take maxRemove

/-- `SmartMemoryResult` (server.go:1586-1592). -/
structure SmartMemoryResult where
  chunksCleaned : ℕ
  memoryFreed : ℤ
  chunksRemaining : ℤ
  averageRelevance : ℚ
deriving DecidableEq, Repr

/-- `applySmartMemoryStrategy` (server.go:1595-1668); deletes succeed as
in `cleanupSession`. -/
def applySmartMemoryStrategy (now : ℚ) (rows : List ContextChunk) (phase : SessionPhase)
    (strategy : MemoryStrategy) (preserveImportant : Bool) : SmartMemoryResult :=
  let chunks := searchByEmbeddingNil now rows 1000
  let originalCount := chunks.length
  let ratio := getCleanupRatio strategy phase
  let maxRemove0 := goInt ((chunks.length : ℚ) * ratio)
  let maxRemove : ℕ := (if maxRemove0 = 0 ∧ 10 < chunks.length then 1 else maxRemove0).toNat
  let toRemove := match strategy with
    | .aggressive => selectAggressiveCleanup chunks maxRemove preserveImportant
    | .balanced => selectBalancedCleanup now chunks maxRemove preserveImportant
    | .conservative => selectConservativeCleanup now chunks maxRemove preserveImportant
  let memoryFreed : ℤ := (toRemove.map (fun c => (c.content.length : ℤ))).sum
  let remainingChunks : ℤ := (originalCount : ℤ) - toRemove.length
  let avgRelevance : ℚ :=
    if 0 < remainingChunks then
      ((chunks.filter (fun c => !(toRemove.any (fun r => r.id = c.id)))).map
        (fun c => c.relevance)).sum / (remainingChunks : ℚ)
    else 0
  { chunksCleaned := toRemove.length, memoryFreed := memoryFreed,
    chunksRemaining := remainingChunks, averageRelevance := avgRelevance }

/-! ## Chunker (package chunker)

The content-type regexes of `detectContentType` are simple enough to be
matched by a maximal-munch scanner: each is a sequence of literals, `\s+`
runs and `\w+` runs, where adjacent classes are disjoint, so the greedy
scan below finds a match at a position exactly when RE2 does. -/

/-- `chunker.Config`. -/
structure ChunkerConfig where
  maxChunkSize : ℤ
  overlapSize : ℕ
  minChunkSize : ℤ
  sentenceWeight : ℚ
  paragraphWeight : ℚ
  codeWeight : ℚ
deriving DecidableEq, Repr

/-- The default configuration of `chunker.NewService` (part of the
chunker source, `NewService`): 1024/100/50, weights 1.0/0.8/0.9. -/
def defaultChunkerConfig : ChunkerConfig :=
  { maxChunkSize := 1024, overlapSize := 100, minChunkSize := 50,
    sentenceWeight := 1, paragraphWeight := 8/10, codeWeight := 9/10 }

/-- `chunker.ContentType`. -/
inductive ContentTypeT | text | code | markdown | json | xml
deriving DecidableEq, Repr

/-- `chunker.ChunkInfo`. -/
structure ChunkInfo where
  content : Str
  startOffset : ℤ
  endOffset : ℤ
  chunkIndex : ℕ
  contentType : ContentTypeT
  semanticScore : ℚ
deriving DecidableEq, Repr

/-- One token of a code-detection regex: a literal, a `\s+` run or a
`\w+` run. -/
inductive PatTok | lit (s : Str) | wsPlus | wordPlus
deriving DecidableEq

/-- Match a token sequence at the head of `l` (maximal munch; exact for
the patterns used because adjacent classes are disjoint). -/
def matchToksAt : List PatTok → Str → Bool
  | [], _ => true
  | .lit s :: ts, l => s.isPrefixOf l && matchToksAt ts (l.drop s.length)
  | .wsPlus :: ts, l => !(l.takeWhile isSpaceRe).isEmpty && matchToksAt ts (l.dropWhile isSpaceRe)
  | .wordPlus :: ts, l => !(l.takeWhile isWordRe).isEmpty && matchToksAt ts (l.dropWhile isWordRe)

/-- `regexp.MatchString(pattern, content)`: match at any position. -/
def matchAnywhere (p : List PatTok) : Str → Bool
  | [] => matchToksAt p []
  | l@(_ :: rest) => matchToksAt p l || matchAnywhere p rest

/-- The `codePatterns` of `detectContentType`. -/
def codePatterns : List (List PatTok) :=
  [[.lit (str "package"), .wsPlus, .wordPlus],
   [.lit (str "import"), .wsPlus],
   [.lit (str "function"), .wsPlus, .wordPlus],
   [.lit (str "def"), .wsPlus, .wordPlus],
   [.lit (str "class"), .wsPlus, .wordPlus],
   [.lit (str "#include"), .wsPlus],
   [.lit (str "public"), .wsPlus, .lit (str "class")]]

/-- `detectContentType` (chunker source): code patterns first, then
markdown markers, then JSON and XML bracket heuristics. -/
def detectContentType (content0 : Str) : ContentTypeT :=
  let content := trimSpace content0
  if codePatterns.any (fun p => matchAnywhere p content) then .code
  else if containsSub content (str "# ") || containsSub content (str "## ") ||
          containsSub content (str "```") || containsSub content (str "**") then .markdown
  else if (hasPrefixStr content (str "\x7b") && hasSuffixStr content (str "\x7d")) ||
          (hasPrefixStr content (str "[") && hasSuffixStr content (str "]")) then .json
  else if hasPrefixStr content (str "<") && containsSub content (str ">") then .xml
  else .text

/-- The sentence splitter of the chunker (`splitIntoSentences`): split on
the regex `[.!?]+\s+` and glue each separator back onto the piece before
it; a trailing piece (possibly empty) is kept bare. -/
def isPunctSent (c : Char) : Bool := c = '.' || c = '!' || c = '?'

/-- Scanner for `splitIntoSentences`: `acc` holds the current piece in
reverse.  A maximal `[.!?]+` run followed by a nonempty `\s+` run closes
a sentence; a punctuation run with no following space cannot start a
match anywhere inside it and is skipped whole.  Structural on a fuel
argument (initialised to the string length, which bounds the recursion
depth) so the kernel can evaluate it. -/
def splitSentGoF : ℕ → Str → Str → List Str
  | _, [], acc => [acc.reverse]
  | 0, l, acc => [acc.reverse ++ l]
  | fuel + 1, c :: rest, acc =>
    if isPunctSent c then
      let punctRun := (c :: rest).takeWhile isPunctSent
      let afterPunct := (c :: rest).dropWhile isPunctSent
      let wsRun := afterPunct.takeWhile isSpaceRe
      if wsRun.isEmpty then
        splitSentGoF fuel afterPunct (punctRun.reverse ++ acc)
      else
        (acc.reverse ++ punctRun ++ wsRun) :: splitSentGoF fuel (afterPunct.dropWhile isSpaceRe) []
  else splitSentGoF fuel rest (c :: acc)

/-- `splitIntoSentences` of the chunker. -/
def splitIntoSentences (text : Str) : List Str := splitSentGoF text.length text []

/-- `getOverlap` (chunker source): prefer the last sentence when it fits
in `overlapSize`, else take the trailing `overlapSize` bytes. -/
def getOverlap (chunk : Str) (overlapSize : ℕ) : Str :=
  if overlapSize = 0 ∨ chunk.length ≤ overlapSize then []
  else
    let sentences := splitIntoSentences chunk
    let fromLast :=
      if 1 < sentences.length then
        let lastSentence := sentences.getLastD []
        if lastSentence.length ≤ overlapSize then some lastSentence else none
      else none
    match fromLast with
    | some s => s
    | none => chunk.drop (chunk.length - overlapSize)

/-- `calculateSemanticScore` (chunker source): base 0.5 plus content-type
weights, clamped to `[0,1]`. -/
def calculateSemanticScore (cfg : ChunkerConfig) (content : Str) (contentType : ContentTypeT) : ℚ :=
  let score : ℚ := 5/10
  let score := match contentType with
    | .code =>
      let s := score + cfg.codeWeight
      if containsSub content (str "func ") || containsSub content (str "class ") then s + 2/10 else s
    | .markdown => if containsSub content (str "# ") then score + 3/10 else score
    | _ => score
  let score := if 50 < (fieldsGo content).length then score + 1/10 else score
  let score := if (content.length : ℤ) < cfg.minChunkSize then score - 2/10 else score
  min (max score 0) 1

/-- The accumulation loop of `chunkText` (chunker source): gather
sentences while they fit, else emit the trimmed current chunk and restart
from its overlap. -/
def chunkTextGo (cfg : ChunkerConfig) (maxSize : ℤ) :
    List Str → Str → ℤ → ℕ → List ChunkInfo
  | [], currentChunk, currentOffset, chunkIndex =>
    if trimSpace currentChunk ≠ [] then
      [{ content := trimSpace currentChunk, startOffset := currentOffset,
         endOffset := currentOffset + currentChunk.length, chunkIndex := chunkIndex,
         contentType := .text, semanticScore := calculateSemanticScore cfg currentChunk .text }]
    else []
  | sentence :: rest, currentChunk, currentOffset, chunkIndex =>
    if (currentChunk.length : ℤ) + sentence.length > maxSize ∧ currentChunk ≠ [] then
      let chunk : ChunkInfo :=
        { content := trimSpace currentChunk, startOffset := currentOffset,
          endOffset := currentOffset + currentChunk.length, chunkIndex := chunkIndex,
          contentType := .text, semanticScore := calculateSemanticScore cfg currentChunk .text }
      let overlap := getOverlap currentChunk cfg.overlapSize
      chunk :: chunkTextGo cfg maxSize rest (overlap ++ sentence)
        (chunk.endOffset - overlap.length) (chunkIndex + 1)
    else chunkTextGo cfg maxSize rest (currentChunk ++ sentence) currentOffset chunkIndex

/-- `chunkText` (chunker source). -/
def chunkText (cfg : ChunkerConfig) (content : Str) (maxSize : ℤ) : List ChunkInfo :=
  if (content.length : ℤ) ≤ maxSize then
    [{ content := content, startOffset := 0, endOffset := content.length,
       chunkIndex := 0, contentType := .text, semanticScore := 1 }]
  else chunkTextGo cfg maxSize (splitIntoSentences content) [] 0 0

/-- `findCodeBreakPoint` (chunker source): byte offset just past the last
line that is blank or a lone brace, or the whole length. -/
def findCodeBreakPoint (code : Str) : ℤ :=
  let lines := splitOnChar '\n' code
  match (List.range lines.length).reverse.find?
      (fun i => let t := trimSpace (lines.getD i []); t = str "\x7d" || t = []) with
  | some i => ((lines.take (i + 1)).map (fun l => (l.length : ℤ) + 1)).sum
  | none => code.length

/-- `getCodeOverlap` builder loop: iterate the lines from last to first,
appending while the budget allows (the Go `strings.Builder` appends, so
the collected lines end up in reverse order). -/
def codeOverlapGo (overlapSize : ℕ) : List Str → Str → Str
  | [], acc => acc
  | l :: rest, acc =>
    let line := l ++ [Char.ofNat 10]
    if overlapSize < acc.length + line.length then acc
    else codeOverlapGo overlapSize rest (acc ++ line)

/-- `getCodeOverlap` (chunker source). -/
def getCodeOverlap (chunk : Str) (overlapSize : ℕ) : Str :=
  if overlapSize = 0 then []
  else
    let lines := splitOnChar '\n' chunk
    if lines.length < 2 then getOverlap chunk overlapSize
    else codeOverlapGo overlapSize lines.reverse []

/-- The line loop of `chunkCode` (chunker source); each list element
carries the line and whether it is the last one (only non-last lines get
their newline back).  Go slicing `currentChunk[:breakPoint]` is modelled
with `take`/`drop` (the offset past-the-end case that would panic in Go
is not exercised by any claim). -/
def chunkCodeGo (cfg : ChunkerConfig) (maxSize : ℤ) :
    List (Str × Bool) → Str → ℤ → ℕ → List ChunkInfo
  | [], currentChunk, currentOffset, chunkIndex =>
    if trimSpace currentChunk ≠ [] then
      [{ content := currentChunk, startOffset := currentOffset,
         endOffset := currentOffset + currentChunk.length, chunkIndex := chunkIndex,
         contentType := .code, semanticScore := calculateSemanticScore cfg currentChunk .code }]
    else []
  | (line, isLast) :: rest, currentChunk, currentOffset, chunkIndex =>
    let lineWithNewline := if isLast then line else line ++ [Char.ofNat 10]
    if (currentChunk.length : ℤ) + lineWithNewline.length > maxSize ∧ currentChunk ≠ [] then
      let breakPoint := (findCodeBreakPoint currentChunk).toNat
      let chunk : ChunkInfo :=
        { content := currentChunk.take breakPoint, startOffset := currentOffset,
          endOffset := currentOffset + breakPoint, chunkIndex := chunkIndex,
          contentType := .code, semanticScore := calculateSemanticScore cfg currentChunk .code }
      let remaining := currentChunk.drop breakPoint
      let overlap := getCodeOverlap (currentChunk.take breakPoint) cfg.overlapSize
      chunk :: chunkCodeGo cfg maxSize rest (overlap ++ remaining ++ lineWithNewline)
        (currentOffset + breakPoint - overlap.length) (chunkIndex + 1)
    else chunkCodeGo cfg maxSize rest (currentChunk ++ lineWithNewline) currentOffset chunkIndex

/-- Attach an is-last flag to every element. -/
def markLast (l : List Str) : List (Str × Bool) :=
  match l with
  | [] => []
  | [x] => [(x, true)]
  | x :: rest => (x, false) :: markLast rest

/-- `chunkCode` (chunker source). -/
def chunkCode (cfg : ChunkerConfig) (content : Str) (maxSize : ℤ) : List ChunkInfo :=
  if (content.length : ℤ) ≤ maxSize then
    [{ content := content, startOffset := 0, endOffset := content.length,
       chunkIndex := 0, contentType := .code, semanticScore := 1 }]
  else chunkCodeGo cfg maxSize (markLast (splitOnChar (Char.ofNat 10) content)) [] 0 0

/-- Section accumulation of `splitMarkdownSections` (chunker source). -/
def splitMdGo : List Str → Str → List Str → List Str
  | [], cur, acc => if cur ≠ [] then acc ++ [cur] else acc
  | l :: rest, cur, acc =>
    if hasPrefixStr (trimSpace l) (str "# ") ∧ cur ≠ [] then
      splitMdGo rest (l ++ [Char.ofNat 10]) (acc ++ [cur])
    else splitMdGo rest (cur ++ l ++ [Char.ofNat 10]) acc

/-- `splitMarkdownSections` (chunker source). -/
def splitMarkdownSections (content : Str) : List Str :=
  splitMdGo (splitOnChar (Char.ofNat 10) content) [] []

/-- The section loop of `chunkMarkdown` (chunker source), tracking the
running offset and chunk index. -/
def chunkMdGo (cfg : ChunkerConfig) (maxSize : ℤ) : List Str → ℤ → ℕ → List ChunkInfo
  | [], _, _ => []
  | section0 :: rest, offset, chunkIndex =>
    if (section0.length : ℤ) ≤ maxSize then
      { content := section0, startOffset := offset, endOffset := offset + section0.length,
        chunkIndex := chunkIndex, contentType := .markdown,
        semanticScore := calculateSemanticScore cfg section0 .markdown } ::
      chunkMdGo cfg maxSize rest (offset + section0.length) (chunkIndex + 1)
    else
      let subChunks := chunkText cfg section0 maxSize
      (subChunks.enum.map (fun p =>
        { content := p.2.content, startOffset := offset + p.2.startOffset,
          endOffset := offset + p.2.endOffset, chunkIndex := chunkIndex + p.1,
          contentType := .markdown,
          semanticScore := calculateSemanticScore cfg p.2.content .markdown })) ++
      chunkMdGo cfg maxSize rest (offset + section0.length) (chunkIndex + subChunks.length)

/-- `chunkMarkdown` (chunker source). -/
def chunkMarkdown (cfg : ChunkerConfig) (content : Str) (maxSize : ℤ) : List ChunkInfo :=
  if (content.length : ℤ) ≤ maxSize then
    [{ content := content, startOffset := 0, endOffset := content.length,
       chunkIndex := 0, contentType := .markdown, semanticScore := 1 }]
  else chunkMdGo cfg maxSize (splitMarkdownSections content) 0 0

/-- `chunkJSON` (chunker source): single chunk when small, else the text
splitter. -/
def chunkJSON (cfg : ChunkerConfig) (content : Str) (maxSize : ℤ) : List ChunkInfo :=
  if (content.length : ℤ) ≤ maxSize then
    [{ content := content, startOffset := 0, endOffset := content.length,
       chunkIndex := 0, contentType := .json, semanticScore := 1 }]
  else chunkText cfg content maxSize

/-- `ChunkContentWithInfo` (chunker source).  Every strategy returns a
nil error on every path, so the result is the chunk list itself. -/
def chunkContentWithInfo (cfg : ChunkerConfig) (content : Str) (maxSize : ℤ) : List ChunkInfo :=
  if content = [] then []
  else match detectContentType content with
    | .code => chunkCode cfg content maxSize
    | .markdown => chunkMarkdown cfg content maxSize
    | .json => chunkJSON cfg content maxSize
    | _ => chunkText cfg content maxSize

/-- `ChunkContent` (chunker source): empty input short-circuits, a
non-positive `maxSize` falls back to the configured chunk size, and the
result keeps only the chunk contents. -/
def chunkContent (cfg : ChunkerConfig) (content : Str) (maxSize : ℤ) : List Str :=
  if content = [] then []
  else
    let maxSize := if maxSize ≤ 0 then cfg.maxChunkSize else maxSize
    (chunkContentWithInfo cfg content maxSize).map (fun c => c.content)

/-! ## Summarizer (package summarizer) and store_context
(internal/server/server.go:489-589) -/

/-- `summarizer.SummaryResult` (statistics fields that no claim reads are
kept at their zero values). -/
structure SummaryResult where
  summary : Str := []
  originalLength : ℤ := 0
  summaryLength : ℤ := 0
  compressionRatio : ℚ := 0
deriving DecidableEq, Repr

/-- `SummarizeContentWithInfo` (summarizer source): the empty and
already-short inputs return early; the extractive pipeline behind them
(preserved-element extraction, sentence scoring, greedy selection) is
abstracted as `longPath`, since no claim depends on its output and the
claims' cited lines end at the short-circuit.  Every Go return site of
the function returns a nil error, so the model returns the result
directly. -/
def summarizeContentWithInfo (longPath : Str → ℤ → SummaryResult)
    (content : Str) (maxLength : ℤ) : SummaryResult :=
  if content = [] then {}
  else if (content.length : ℤ) ≤ maxLength then
    { summary := content, originalLength := content.length,
      summaryLength := content.length, compressionRatio := 1 }
  else longPath content maxLength

/-- `SummarizeContent` (summarizer source): the summary of the detailed
result. -/
def summarizeContent (longPath : Str → ℤ → SummaryResult) (content : Str) (maxLength : ℤ) : Str :=
  (summarizeContentWithInfo longPath content maxLength).summary

/-- The chunk-combination step of `storeContext` (server.go:510-528):
keep the single chunk, or concatenate chunks (each followed by a space)
while the running length fits in `chunkSize`, falling back to the first
chunk.  The Go code indexes `chunks[0]`, which panics on an empty list;
the model returns `[]` there (no claim exercises it). -/
def combineLoop (chunkSize : ℤ) : List Str → Str → ℤ → Str
  | [], acc, _ => acc
  | c :: rest, acc, combinedLength =>
    if combinedLength + c.length ≤ chunkSize then
      combineLoop chunkSize rest (acc ++ c ++ [' ']) (combinedLength + c.length)
    else acc

/-- `storeContext` content combination (server.go:510-528). -/
def combineChunks (chunkSize : ℤ) (chunks : List Str) : Str :=
  match chunks with
  | [c] => c
  | _ =>
    let finalContent := combineLoop chunkSize chunks [] 0
    if finalContent = [] then chunks.headD [] else finalContent

/-- `storeContext` (server.go:489-589), parametrised by the collaborator
functions it calls: the chunker, the embedder and the summarizer (each an
`Except`, mirroring the Go `(value, error)` contracts storeContext is
written against).  On success the new chunk id and the stored record are
returned; every error path returns before `StoreChunk`, so an error
means nothing was stored. -/
def storeContext
    (chunkContentF : Str → Except ErrCode (List Str))
    (generateEmbeddingF : Str → Except ErrCode (List ℚ))
    (summarizeContentF : Str → ℤ → Except ErrCode Str)
    (chunkSize : ℤ) (ttlDefault : ℚ) (now : ℚ) (newId : ℕ) (sessionId : ℕ)
    (content : Str) (importance : Importance) :
    Except ErrCode (ℕ × ContextChunk) :=
  match chunkContentF content with
  | .error _ => .error .chunking
  | .ok chunks =>
    let finalContent := combineChunks chunkSize chunks
    match generateEmbeddingF finalContent with
    | .error _ => .error .embedding
    | .ok embedding =>
      match summarizeContentF finalContent (chunkSize / 3) with
      | .error _ => .error .summarization
      | .ok summary =>
        let relevance := calculateInitialRelevance importance
        let chunk : ContextChunk :=
          { id := newId, sessionId := sessionId, content := finalContent,
            summary := summary, embedding := some embedding, relevance := relevance,
            timestamp := now, ttl := ttlDefault,
            ttlDeadline := if 0 < ttlDefault then some (now + ttlDefault) else none,
            importance := importance }
        .ok (newId, chunk)

/-! ## Response budget engine (internal/logger/logger.go:262-626)

`EstimateTokensForResponse` serialises its argument with `json.Marshal`.
The serialiser is embedded below for the concrete struct types involved,
following `encoding/json`: fields in struct order under their tags,
strings quoted (no character needing an escape occurs in any modelled
input), numbers in decimal, `nil` slices/pointers as `null`, and
`omitempty` fields dropped.  `time.Time` renders as RFC 3339; only the
zero time (used by every evaluated input) is spelled out.  A Go nil slice
and an empty one marshal differently (`null` vs `[]`), so the result
lists are `Option (List _)` with `none` for nil. -/

/-- `types.ContextRelationship`. -/
structure ContextRelationship where
  chunkId : ℕ
  relatedChunks : List ℕ
  strength : ℚ
  reason : Str
deriving DecidableEq, Repr

/-- `types.ResponsePaging` (`nextPageToken` empty ⇒ omitted). -/
structure ResponsePaging where
  pageSize : ℤ
  currentPage : ℤ
  totalPages : ℤ
  totalItems : ℤ
  hasMore : Bool
  nextPageToken : Str
deriving DecidableEq, Repr

/-- `types.TokenLimits`. -/
structure TokenLimits where
  maxResponseTokens : ℤ
  estimatedTokens : ℤ
  truncatedContent : Bool
deriving DecidableEq, Repr

/-- `types.ResponseConfig`. -/
structure ResponseConfig where
  maxTokens : ℤ
  enablePaging : Bool
  pageSize : ℤ
  truncateContent : Bool
deriving DecidableEq, Repr

/-- `types.PaginatedRetrievalResult`. -/
structure PaginatedRetrievalResult where
  primaryChunks : Option (List ContextChunk)
  relatedChunks : Option (List ContextChunk)
  relationships : Option (List ContextRelationship)
  retrievalReason : Str
  totalRelevance : ℚ
  processingTimeMs : ℤ
  paging : Option ResponsePaging
  tokenLimits : TokenLimits
deriving DecidableEq, Repr

/-- JSON string literal (no modelled input contains a character that
`encoding/json` escapes). -/
def jsonStr (s : Str) : Str := ['"'] ++ s ++ ['"']

/-- JSON rendering of a Go float64 holding an exactly-decimal value, as
`encoding/json` prints it (shortest round-tripping form).  Values without
a finite decimal expansion are not produced by any modelled input. -/
def jsonNum (q : ℚ) : Str :=
  if q.den = 1 then str (toString q.num)
  else
    match (List.range 18).find? (fun k => (q * ((10 ^ k : ℕ) : ℚ)).den = 1) with
    | some k =>
      let sign : Str := if q < 0 then ['-'] else []
      let scaled := q.num.natAbs * 10 ^ k / q.den
      let intPart := scaled / 10 ^ k
      let fracPart := scaled % 10 ^ k
      let ds := str (toString fracPart)
      sign ++ str (toString intPart) ++ ['.'] ++ (List.replicate (k - ds.length) '0' ++ ds)
    | none => str "UNMODELED-FLOAT"

/-- JSON array from rendered elements. -/
def jsonArr (elems : List Str) : Str := ['['] ++ (List.intercalate [','] elems) ++ [']']

/-- JSON object from rendered `"name":value` fields. -/
def jsonObj (fields : List Str) : Str :=
  [Char.ofNat 123] ++ (List.intercalate [','] fields) ++ [Char.ofNat 125]

/-- One `"name":value` field. -/
def jfield (name : String) (v : Str) : Str := jsonStr (str name) ++ [':'] ++ v

/-- `true` / `false`. -/
def jsonBool (b : Bool) : Str := if b then str "true" else str "false"

/-- `time.Time` in RFC 3339; every evaluated input carries the zero
time. -/
def marshalTime (t : ℚ) : Str :=
  if t = 0 then jsonStr (str "0001-01-01T00:00:00Z") else jsonStr (str "UNMODELED-TIME")

/-- `time.Duration` marshals as its int64 nanosecond count; `ttl` is kept
in hours, so scale by 3.6e12. -/
def marshalDuration (t : ℚ) : Str := jsonNum (t * 3600000000000)

/-- `json.Marshal` of a `types.ContextChunk` (struct tags of
internal/types/types.go): ids are strings in Go, rendered as their
decimal digits here. -/
def marshalChunk (c : ContextChunk) : Str :=
  jsonObj
    [jfield "id" (jsonStr (str (toString c.id))),
     jfield "session_id" (jsonStr (str (toString c.sessionId))),
     jfield "content" (jsonStr c.content),
     jfield "summary" (jsonStr c.summary),
     jfield "embedding" (match c.embedding with
       | none => str "null"
       | some v => jsonArr (v.map jsonNum)),
     jfield "relevance" (jsonNum c.relevance),
     jfield "timestamp" (marshalTime c.timestamp),
     jfield "ttl" (marshalDuration c.ttl),
     jfield "importance" (jsonStr (match c.importance with
       | .low => str "low" | .medium => str "medium" | .high => str "high"))]

/-- `json.Marshal` of a `types.ContextRelationship`. -/
def marshalRelationship (r : ContextRelationship) : Str :=
  jsonObj
    [jfield "chunk_id" (jsonStr (str (toString r.chunkId))),
     jfield "related_chunks" (jsonArr (r.relatedChunks.map (fun i => jsonStr (str (toString i))))),
     jfield "relationship_strength" (jsonNum r.strength),
     jfield "relationship_reason" (jsonStr r.reason)]

/-- `json.Marshal` of a `types.ResponsePaging` (`next_page_token` has
`omitempty`). -/
def marshalPaging (p : ResponsePaging) : Str :=
  jsonObj
    ([jfield "page_size" (str (toString p.pageSize)),
      jfield "current_page" (str (toString p.currentPage)),
      jfield "total_pages" (str (toString p.totalPages)),
      jfield "total_items" (str (toString p.totalItems)),
      jfield "has_more" (jsonBool p.hasMore)] ++
     (if p.nextPageToken = [] then [] else [jfield "next_page_token" (jsonStr p.nextPageToken)]))

/-- `json.Marshal` of a `types.TokenLimits`. -/
def marshalTokenLimits (t : TokenLimits) : Str :=
  jsonObj
    [jfield "max_response_tokens" (str (toString t.maxResponseTokens)),
     jfield "estimated_tokens" (str (toString t.estimatedTokens)),
     jfield "truncated_content" (jsonBool t.truncatedContent)]

/-- A Go slice field: `null` for nil, a JSON array otherwise. -/
def marshalOptList (f : α → Str) : Option (List α) → Str
  | none => str "null"
  | some l => jsonArr (l.map f)

/-- `json.Marshal` of a `types.PaginatedRetrievalResult` (`paging` is a
pointer with `omitempty`). -/
def marshalResult (r : PaginatedRetrievalResult) : Str :=
  jsonObj
    ([jfield "primary_chunks" (marshalOptList marshalChunk r.primaryChunks),
      jfield "related_chunks" (marshalOptList marshalChunk r.relatedChunks),
      jfield "relationships" (marshalOptList marshalRelationship r.relationships),
      jfield "retrieval_reason" (jsonStr r.retrievalReason),
      jfield "total_relevance" (jsonNum r.totalRelevance),
      jfield "processing_time_ms" (str (toString r.processingTimeMs))] ++
     (match r.paging with
      | none => []
      | some p => [jfield "paging" (marshalPaging p)]) ++
     [jfield "token_limits" (marshalTokenLimits r.tokenLimits)])

/-- The `codeIndicators` of `adjustForContentType` (logger.go:309). -/
def codeIndicators : List Str :=
  [[Char.ofNat 123], [Char.ofNat 125], str "(", str ")",
   str "function", str "class", str "import", str "const"]

/-- `adjustForContentType` (logger.go:307-327): count the distinct code
indicators contained in the lowercased text; three or more scale the
estimate by 1.3, at least one by 1.1. -/
def adjustForContentType (text : Str) (baseTokens : ℚ) : ℚ :=
  let lowerText := toLowerStr text
  let codeScore := (codeIndicators.filter (fun ind => containsSub lowerText ind)).length
  if 3 ≤ codeScore then baseTokens * (13/10)
  else if 1 ≤ codeScore then baseTokens * (11/10)
  else baseTokens

/-- `EstimateTokens` (logger.go:276-290): `⌈len(text)/4 · factor⌉`,
zero for empty text (`CharPerToken = 4.0` from `NewTokenEstimator`). -/
def estimateTokens (text : Str) : ℤ :=
  if text = [] then 0
  else goCeil (adjustForContentType text ((text.length : ℚ) / 4))

/-- `EstimateTokensForResponse` (logger.go:293-304) applied to an
already-marshalled value: `int(1.2 · tokens(json))`. -/
def estimateTokensForResponseJson (jsonBytes : Str) : ℤ :=
  goInt ((estimateTokens jsonBytes : ℚ) * (12/10))

/-- `EstimateTokensForResponse` on a `PaginatedRetrievalResult`. -/
def estimateTokensForResult (r : PaginatedRetrievalResult) : ℤ :=
  estimateTokensForResponseJson (marshalResult r)

/-- `estimateChunkTokens` (logger.go:582-590). -/
def estimateChunkTokens (c : ContextChunk) : ℤ :=
  estimateTokens c.content + estimateTokens c.summary + 50

/-- `estimateChunksTokens` (logger.go:573-579). -/
def estimateChunksTokens (chunks : List ContextChunk) : ℤ :=
  (chunks.map estimateChunkTokens).sum

/-- `truncateChunk` (logger.go:593-625): cut the content to
`int(avail · 4 · 0.8)` bytes, back up to the last space when it lies past
the midpoint, and append the literal truncation marker. -/
def truncateChunk (c : ContextChunk) (tokenBudget : ℤ) : Option ContextChunk :=
  if tokenBudget ≤ 100 then none
  else
    let summaryTokens := estimateTokens c.summary
    let availableForContent := tokenBudget - summaryTokens - 50
    if availableForContent ≤ 50 then none
    else
      let maxChars := goInt ((availableForContent : ℚ) * 4 * (8/10))
      if (c.content.length : ℤ) ≤ maxChars then some c
      else
        let truncated := c.content.take maxChars.toNat
        let lastSpace := lastIndexOfChar truncated ' '
        let truncated := if lastSpace > maxChars / 2 then truncated.take lastSpace.toNat else truncated
        some { c with content := truncated ++ str "... [truncated]" }

/-- The accumulation loop of `limitChunksToTokenBudget`
(logger.go:524-546): include whole chunks while they fit; on overflow,
truncate only when allowed and nothing was included yet, then stop. -/
def limitChunksGo (cfg : ResponseConfig) (tokenBudget : ℤ) :
    List ContextChunk → List ContextChunk → ℤ → List ContextChunk
  | [], result, _ => result
  | c :: rest, result, usedTokens =>
    let chunkTokens := estimateChunkTokens c
    if usedTokens + chunkTokens > tokenBudget then
      if cfg.truncateContent ∧ result = [] then
        match truncateChunk c (tokenBudget - 50) with
        | some tc => result ++ [tc]
        | none => result
      else result
    else limitChunksGo cfg tokenBudget rest (result ++ [c]) (usedTokens + chunkTokens)

/-- `limitChunksToTokenBudget` (logger.go:519-547). -/
def limitChunksToTokenBudget (cfg : ResponseConfig) (chunks : List ContextChunk) (tokenBudget : ℤ) : List ContextChunk :=
  if chunks = [] ∨ tokenBudget ≤ 0 then [] else limitChunksGo cfg tokenBudget chunks [] 0

/-- The `fmt.Sprintf("%s %s %.3f", …)` string whose token estimate
drives `limitRelationshipsToTokenBudget` (logger.go:559).  `%.3f` of the
exactly-representable strengths used here is the three-decimal form. -/
def relSprintf (r : ContextRelationship) : Str :=
  let f3 :=
    if (r.strength * 1000).den = 1 then
      let n := (r.strength * 1000).num
      let sign : Str := if n < 0 then ['-'] else []
      sign ++ str (toString (n.natAbs / 1000)) ++ ['.'] ++
        (let ds := str (toString (n.natAbs % 1000))
         List.replicate (3 - ds.length) '0' ++ ds)
    else str "UNMODELED-FLOAT"
  str (toString r.chunkId) ++ [' '] ++ r.reason ++ [' '] ++ f3

/-- The accumulation loop of `limitRelationshipsToTokenBudget`
(logger.go:555-569). -/
def limitRelsGo (tokenBudget : ℤ) :
    List ContextRelationship → List ContextRelationship → ℤ → List ContextRelationship
  | [], result, _ => result
  | r :: rest, result, usedTokens =>
    let relTokens := estimateTokens (relSprintf r)
    if usedTokens + relTokens > tokenBudget then result
    else limitRelsGo tokenBudget rest (result ++ [r]) (usedTokens + relTokens)

/-- `limitRelationshipsToTokenBudget` (logger.go:550-570). -/
def limitRelationshipsToTokenBudget (rels : List ContextRelationship) (tokenBudget : ℤ) : List ContextRelationship :=
  if rels = [] ∨ tokenBudget ≤ 0 then [] else limitRelsGo tokenBudget rels [] 0

/-- `paginateChunks` (logger.go:460-516). -/
def paginateChunks (cfg : ResponseConfig) (chunks : List ContextChunk) (page0 : ℤ)
    (chunkType : Str) (tokenBudget : ℤ) : List ContextChunk × Option ResponsePaging :=
  if chunks = [] then ([], none)
  else
    let fittingChunks := limitChunksToTokenBudget cfg chunks tokenBudget
    if fittingChunks.length = chunks.length ∧ (fittingChunks.length : ℤ) ≤ cfg.pageSize then
      (fittingChunks, none)
    else
      let pageSize := cfg.pageSize
      let totalItems : ℤ := fittingChunks.length
      let totalPages := goCeil ((totalItems : ℚ) / (pageSize : ℚ))
      let page := if page0 < 1 then 1 else page0
      let page := if page > totalPages then totalPages else page
      let startIdx := (page - 1) * pageSize
      let endIdx := min (startIdx + pageSize) totalItems
      let pageChunks := ((fittingChunks.drop startIdx.toNat).take (endIdx - startIdx).toNat)
      let hasMore := page < totalPages
      (pageChunks,
       some { pageSize := pageSize, currentPage := page, totalPages := totalPages,
              totalItems := totalItems, hasMore := hasMore,
              nextPageToken := if hasMore then chunkType ++ str "_page_" ++ str (toString (page + 1)) else [] })

/-- The base-overhead probe structure of `fitContentWithinBudget`
(logger.go:398-408). -/
def baseStructureOf (cfg : ResponseConfig) : PaginatedRetrievalResult :=
  { primaryChunks := some [], relatedChunks := some [], relationships := some [],
    retrievalReason := str "Base structure overhead calculation",
    totalRelevance := 0, processingTimeMs := 0, paging := none,
    tokenLimits := { maxResponseTokens := cfg.maxTokens, estimatedTokens := 0, truncatedContent := false } }

/-- `availableTokens` of `fitContentWithinBudget` (logger.go:410-411):
the configured maximum minus the estimated base overhead minus the
200-token safety reserve. -/
def availableTokensOf (cfg : ResponseConfig) : ℤ :=
  cfg.maxTokens - estimateTokensForResult (baseStructureOf cfg) - 200

/-- The 60% primary allocation of `fitContentWithinBudget`
(logger.go:425). -/
def primaryBudgetOf (cfg : ResponseConfig) : ℤ :=
  goInt ((availableTokensOf cfg : ℚ) * (6/10))

/-- `fitContentWithinBudget` (logger.go:390-457). -/
def fitContentWithinBudget (cfg : ResponseConfig)
    (primaryChunks relatedChunks : List ContextChunk)
    (relationships : List ContextRelationship) (page : ℤ) :
    Option (List ContextChunk) × Option (List ContextChunk) ×
    Option (List ContextRelationship) × Option ResponsePaging :=
  let availableTokens := availableTokensOf cfg
  if availableTokens ≤ 500 then (some [], some [], some [], none)
  else
    let primaryBudget := primaryBudgetOf cfg
    let pr :=
      if cfg.enablePaging then paginateChunks cfg primaryChunks page (str "primary") primaryBudget
      else (limitChunksToTokenBudget cfg primaryChunks primaryBudget, none)
    let resultPrimary := pr.1
    let paging := pr.2
    let usedTokens := estimateChunksTokens resultPrimary
    let remainingBudget := availableTokens - usedTokens
    let related :=
      if remainingBudget > 200 ∧ relatedChunks ≠ [] then
        let relatedBudget := min (remainingBudget / 2) (goInt ((availableTokens : ℚ) * (3/10)))
        let rr :=
          if cfg.enablePaging then (paginateChunks cfg relatedChunks 1 (str "related") relatedBudget).1
          else limitChunksToTokenBudget cfg relatedChunks relatedBudget
        some rr
      else none
    let remainingBudget2 := match related with
      | some rr => availableTokens - (usedTokens + estimateChunksTokens rr)
      | none => remainingBudget
    let resultRelationships :=
      if remainingBudget2 > 100 ∧ relationships ≠ [] then
        some (limitRelationshipsToTokenBudget relationships
          (min remainingBudget2 (goInt ((availableTokens : ℚ) * (1/10)))))
      else none
    (some resultPrimary, related, resultRelationships, paging)

/-- `len` applied to a possibly-nil Go slice. -/
def lenOpt (o : Option (List α)) : ℕ := (o.getD []).length

/-- `LimitContextAwareRetrievalResponse` (logger.go:357-387): pack, then
stamp the token-limits block; `truncated_content` compares only the list
lengths with the inputs. -/
def limitContextAwareRetrievalResponse (cfg : ResponseConfig)
    (primaryChunks relatedChunks : List ContextChunk)
    (relationships : List ContextRelationship) (retrievalReason : Str)
    (totalRelevance : ℚ) (processingTimeMs : ℤ) (page : ℤ) : PaginatedRetrievalResult :=
  let fit := fitContentWithinBudget cfg primaryChunks relatedChunks relationships page
  let result0 : PaginatedRetrievalResult :=
    { primaryChunks := fit.1, relatedChunks := fit.2.1, relationships := fit.2.2.1,
      retrievalReason := retrievalReason, totalRelevance := totalRelevance,
      processingTimeMs := processingTimeMs, paging := fit.2.2.2,
      tokenLimits := { maxResponseTokens := cfg.maxTokens, estimatedTokens := 0, truncatedContent := false } }
  let estimated := estimateTokensForResult result0
  { result0 with tokenLimits :=
      { maxResponseTokens := cfg.maxTokens, estimatedTokens := estimated,
        truncatedContent :=
          lenOpt fit.1 < primaryChunks.length ∨
          lenOpt fit.2.1 < relatedChunks.length ∨
          lenOpt fit.2.2.1 < relationships.length } }

/-! ## Supporting lemmas -/

theorem selectExpiredGo_length_le (now : ℚ) (m : ℕ) :
    ∀ (l acc : List ContextChunk), acc.length < m → (selectExpiredGo now m l acc).length ≤ m := by
  intro l
  induction l with
  | nil => intro acc h; simp only [selectExpiredGo]; omega
  | cons c rest ih =>
    intro acc h
    simp only [selectExpiredGo]
    split
    · split
      · rename_i hm
        simp only [List.length_append, List.length_singleton] at hm ⊢
        omega
      · rename_i hm
        refine ih _ ?_
        simp only [List.length_append, List.length_singleton] at hm ⊢
        omega
    · exact ih acc h

theorem selectExpiredChunks_length_le (now : ℚ) (chunks : List ContextChunk) (m : ℕ) (hm : 0 < m) :
    (selectExpiredChunks now chunks m).length ≤ m :=
  selectExpiredGo_length_le now m chunks [] (by simpa using hm)

theorem selectChunksForRemoval_length_le (now : ℚ) (chunks : List ContextChunk) (strategy : CleanupStrategy) :
    (selectChunksForRemoval now chunks strategy).length ≤ max 1 (chunks.length / 2) := by
  unfold selectChunksForRemoval
  split
  · simp
  · have hcap : (if chunks.length / 2 = 0 then 1 else chunks.length / 2) ≤ max 1 (chunks.length / 2) := by
      split <;> simp_all [Nat.le_max_left, Nat.le_max_right]
    have hpos : 0 < (if chunks.length / 2 = 0 then 1 else chunks.length / 2) := by
      split <;> omega
    match strategy with
    | .ttl => exact le_trans (selectExpiredChunks_length_le now chunks _ hpos) hcap
    | .lru =>
      refine le_trans ?_ hcap
      simpa [selectLRUChunks] using
        le_trans (List.length_take_le _ _) (le_of_eq (sortBy_length _ _))
    | .relevance =>
      refine le_trans ?_ hcap
      simpa [selectLowRelevanceChunks] using
        le_trans (List.length_take_le _ _) (le_of_eq (sortBy_length _ _))

theorem swapInnerF_size (fuel : ℕ) :
    ∀ (arr : Array (ContextChunk × ℚ)) (i j : ℕ), (swapInnerF fuel arr i j).size = arr.size := by
  induction fuel with
  | zero => intro arr i j; rfl
  | succ n ih =>
    intro arr i j
    simp only [swapInnerF]
    split
    · split
      · rw [ih, Array.size_swap!]
      · exact ih arr i (j + 1)
    · rfl

theorem swapInner_size (arr : Array (ContextChunk × ℚ)) (i j : ℕ) :
    (swapInner arr i j).size = arr.size := swapInnerF_size _ arr i j

theorem swapOuterF_size (fuel : ℕ) :
    ∀ (arr : Array (ContextChunk × ℚ)) (i : ℕ), (swapOuterF fuel arr i).size = arr.size := by
  induction fuel with
  | zero => intro arr i; rfl
  | succ n ih =>
    intro arr i
    simp only [swapOuterF]
    split
    · rw [ih, swapInner_size]
    · rfl

theorem swapOuter_size (arr : Array (ContextChunk × ℚ)) (i : ℕ) :
    (swapOuter arr i).size = arr.size := swapOuterF_size _ arr i

theorem searchByEmbeddingNil_length_le (now : ℚ) (rows : List ContextChunk) (m : ℕ) :
    (searchByEmbeddingNil now rows m).length ≤ m := by
  unfold searchByEmbeddingNil
  simpa using List.length_take_le _ _

theorem searchByEmbeddingNil_length_le_rows (now : ℚ) (rows : List ContextChunk) (m : ℕ) :
    (searchByEmbeddingNil now rows m).length ≤ rows.length := by
  unfold searchByEmbeddingNil
  simp only [List.length_map, List.length_take]
  refine le_trans (min_le_right _ _) ?_
  rw [Array.length_toList, swapOuter_size, Array.size_toArray]
  simp only [List.length_map]
  exact le_trans (List.Sublist.length_le (List.filter_sublist _))
    (le_trans (le_of_eq (List.length_map _ _))
      (List.Sublist.length_le (List.filter_sublist _)))

/-! ## Claim C1 -/

/-- C1 (counterexample): a session holding exactly one chunk loses that
chunk under the `lru` strategy — `cleanup_session` removes 1 chunk even
though ⌊1/2⌋ = 0, because `selectChunksForRemoval` raises a zero cap
to 1. -/
theorem C1_single_chunk_lru_removes_one :
    (cleanupSession 0
      [{ id := 1, sessionId := 0, content := str "only chunk", summary := [],
         embedding := some [1], relevance := 1/2, timestamp := 0, ttl := 0,
         ttlDeadline := none, importance := .medium }]
      CleanupStrategy.lru).chunksRemoved = 1 := by decide

/-- C1 (amended): one `cleanup_session` call removes at most
`max 1 ⌊n/2⌋` chunks, where `n` is the number of chunks stored in the
session when the call starts; the `⌊n/2⌋` bound of the claim holds for
`n ≥ 2` but a single-chunk session can lose its only chunk. -/
theorem C1_cleanup_removes_at_most_half_or_one
    (now : ℚ) (rows : List ContextChunk) (strategy : CleanupStrategy) :
    (cleanupSession now rows strategy).chunksRemoved ≤ max 1 (rows.length / 2) := by
  have h := searchByEmbeddingNil_length_le_rows now rows 1000
  simp only [cleanupSession]
  split
  · simp
  · exact le_trans (selectChunksForRemoval_length_le now _ strategy)
      (max_le_max (le_refl 1) (Nat.div_le_div_right h))

/-! ## Claim C4 -/

/-- C4 (counterexample): the retrieval score is not clamped below at 0.
At cosine −1, low importance, zero current relevance and an age past the
recency window the score is −27/50 < 0 (`math.Min` clamps only the upper
end). -/
theorem C4_negative_score_at_cosine_neg_one :
    calculateRetrievalScore 200 (-1)
      { id := 1, sessionId := 0, content := [], summary := [], embedding := some [1],
        relevance := 0, timestamp := 0, ttl := 0, ttlDeadline := none,
        importance := .low } = -27/50 ∧ (-27/50 : ℚ) < 0 := by
  constructor
  · show min ((-1) * (6/10) + (3/10) * (2/10) + max 0 (1 - (200 - 0)/168) * (1/10) + 0 * (1/10)) 1 = -27/50
    norm_num
  · norm_num

/-- C4 (amended): the base score is
`0.6·cosine + 0.2·importance + 0.1·recency + 0.1·relevance` with weights
{high 1.0, medium 0.7, low 0.3} and `recency = max 0 (1 − age/168)`,
clamped above at 1.0 only; for cosine in [−1, 1] and relevance in [0, 1]
the final score lies in [−3/5, 1] and can be negative. -/
theorem C4_score_formula_clamped_above_only
    (now sim : ℚ) (c : ContextChunk) (h1 : -1 ≤ sim) (h2 : sim ≤ 1)
    (h3 : 0 ≤ c.relevance) (h4 : c.relevance ≤ 1) :
    calculateRetrievalScore now sim c =
      min (sim * (6/10) +
           (match c.importance with | .high => 1 | .medium => 7/10 | .low => 3/10) * (2/10) +
           (max 0 (1 - (now - c.timestamp)/168)) * (1/10) + c.relevance * (1/10)) 1 ∧
    -3/5 ≤ calculateRetrievalScore now sim c ∧ calculateRetrievalScore now sim c ≤ 1 := by
  have himp : (3:ℚ)/10 ≤ importanceWeight c.importance ∧ importanceWeight c.importance ≤ 1 := by
    cases c.importance <;> simp [importanceWeight] <;> norm_num
  have hrec : (0:ℚ) ≤ max 0 (1 - (now - c.timestamp)/168) := le_max_left 0 _
  refine ⟨by cases hc : c.importance <;> simp [calculateRetrievalScore, importanceWeight, hc], ?_, ?_⟩
  · unfold calculateRetrievalScore
    simp only
    refine le_min ?_ (by norm_num)
    nlinarith [himp.1, himp.2, hrec]
  · exact min_le_right _ 1

/-- C4 (witness). -/
theorem C4_score_formula_clamped_above_only_witness :
    calculateRetrievalScore 100 (1/2)
      { id := 1, sessionId := 0, content := [], summary := [], embedding := some [1],
        relevance := 1/2, timestamp := 0, ttl := 0, ttlDeadline := none,
        importance := .high } =
      min ((1/2) * (6/10) + 1 * (2/10) + (max 0 (1 - (100 - 0)/168)) * (1/10) + (1/2) * (1/10)) 1 ∧
    (-3/5 : ℚ) ≤ calculateRetrievalScore 100 (1/2)
      { id := 1, sessionId := 0, content := [], summary := [], embedding := some [1],
        relevance := 1/2, timestamp := 0, ttl := 0, ttlDeadline := none,
        importance := .high } ∧
    calculateRetrievalScore 100 (1/2)
      { id := 1, sessionId := 0, content := [], summary := [], embedding := some [1],
        relevance := 1/2, timestamp := 0, ttl := 0, ttlDeadline := none,
        importance := .high } ≤ 1 :=
  C4_score_formula_clamped_above_only 100 (1/2) _ (by norm_num) (by norm_num) (by norm_num) (by norm_num)

/-! ## Claim C5 -/

/-- C5: the development boost table stores the keyword `"API"` in upper
case while the chunk content is lowercased before matching, so a chunk
whose content contains `api` (and no other development keyword) gets no
boost at all: its task-aware relevance stays at the 0.5 base instead of
the claimed 0.5·1.1.  The first conjunct pins down the upper-case table
entry, the second evaluates the scoring function at such a chunk. -/
theorem C5_api_chunk_gets_no_boost :
    (str "API", 11/10) ∈ taskBoostTable TaskType.development ∧
    calculateTaskAwareRelevance 100 (taskBoostTable TaskType.development)
      { id := 1, sessionId := 0, content := str "api design notes", summary := [],
        embedding := some [1], relevance := 1/2, timestamp := 0, ttl := 0,
        ttlDeadline := none, importance := .medium } = 1/2 := by
  constructor
  · decide
  · decide

/-! ## Claim C2 -/

theorem estimateChunksTokens_append (acc : List ContextChunk) (c : ContextChunk) :
    estimateChunksTokens (acc ++ [c]) = estimateChunksTokens acc + estimateChunkTokens c := by
  simp [estimateChunksTokens]

theorem goCeil_nonneg (q : ℚ) (h : 0 ≤ q) : 0 ≤ goCeil q := by
  have hn : 0 ≤ q.num := Rat.num_nonneg.mpr h
  unfold goCeil Rat.ceil
  split
  · exact hn
  · have : 0 ≤ q.num / (q.den : ℤ) := Int.ediv_nonneg hn (by positivity)
    omega

theorem estimateTokens_nonneg (text : Str) : 0 ≤ estimateTokens text := by
  unfold estimateTokens
  split
  · exact le_refl 0
  · apply goCeil_nonneg
    simp only [adjustForContentType]
    split
    · positivity
    · split
      · positivity
      · positivity

theorem estimateChunkTokens_nonneg (c : ContextChunk) : 0 ≤ estimateChunkTokens c := by
  have h1 := estimateTokens_nonneg c.content
  have h2 := estimateTokens_nonneg c.summary
  unfold estimateChunkTokens
  omega

theorem estimateChunksTokens_sublist (l1 l2 : List ContextChunk)
    (h : List.Sublist l1 l2) : estimateChunksTokens l1 ≤ estimateChunksTokens l2 := by
  unfold estimateChunksTokens
  refine List.Sublist.sum_le_sum (List.Sublist.map _ h) ?_
  intro a ha
  obtain ⟨c, _, rfl⟩ := List.mem_map.mp ha
  exact estimateChunkTokens_nonneg c

/-- Every branch of `paginateChunks` returns a slice of the fitting
chunks: either the whole fitting list, or a `drop`-then-`take` page of
it. -/
theorem paginateChunks_fst_sublist (cfg : ResponseConfig) (chunks : List ContextChunk)
    (page : ℤ) (t : Str) (budget : ℤ) :
    List.Sublist (paginateChunks cfg chunks page t budget).1
      (limitChunksToTokenBudget cfg chunks budget) := by
  simp only [paginateChunks]
  split
  · simp
  · split
    · exact List.Sublist.refl _
    · exact List.Sublist.trans (List.take_sublist _ _) (List.drop_sublist _ _)

theorem limitChunksGo_sum_le (cfg : ResponseConfig) (budget : ℤ) (ht : cfg.truncateContent = false) :
    ∀ (l acc : List ContextChunk) (used : ℤ), used = estimateChunksTokens acc → used ≤ budget →
      estimateChunksTokens (limitChunksGo cfg budget l acc used) ≤ budget := by
  intro l
  induction l with
  | nil => intro acc used h hle; simp only [limitChunksGo]; omega
  | cons c rest ih =>
    intro acc used h hle
    simp only [limitChunksGo]
    split
    · have hcond : ¬(cfg.truncateContent = true ∧ acc = []) := by simp [ht]
      rw [if_neg hcond]
      omega
    · rename_i hfit
      exact ih (acc ++ [c]) _ (by rw [estimateChunksTokens_append, h]) (by omega)

theorem limitChunksToTokenBudget_sum_le (cfg : ResponseConfig) (chunks : List ContextChunk)
    (budget : ℤ) (ht : cfg.truncateContent = false) :
    estimateChunksTokens (limitChunksToTokenBudget cfg chunks budget) ≤ max budget 0 := by
  unfold limitChunksToTokenBudget
  split
  · simp [estimateChunksTokens]
  · rename_i hcond
    refine le_trans (limitChunksGo_sum_le cfg budget ht chunks [] 0 (by simp [estimateChunksTokens]) ?_)
      (le_max_left _ _)
    push_neg at hcond
    omega

set_option maxRecDepth 100000 in
/-- C2 (counterexample): the configured limit is never re-checked against
the final estimate.  With `MaxTokens = 50` (the engine accepts any
`ResponseConfig`, and `availableTokens` is then negative, so packing
returns the empty scaffold) the packed response for empty inputs reports
`estimated_tokens = 72 > 50`: the estimate of the serialised scaffold
alone exceeds the configured maximum. -/
theorem C2_estimated_tokens_exceed_max :
    (limitContextAwareRetrievalResponse
      { maxTokens := 50, enablePaging := true, pageSize := 10, truncateContent := true }
      [] [] [] (str "x") 0 0 1).tokenLimits.estimatedTokens = 72 ∧
    (limitContextAwareRetrievalResponse
      { maxTokens := 50, enablePaging := true, pageSize := 10, truncateContent := true }
      [] [] [] (str "x") 0 0 1).tokenLimits.maxResponseTokens = 50 ∧ (50 : ℤ) < 72 := by
  refine ⟨by decide, by decide, by decide⟩

/-- C2 (amended): the budget engine enforces its limit only section-wise
during packing — with content truncation disabled, whether paging is
enabled or not, the summed per-chunk token estimates of the selected
primary chunks never exceed the primary budget
`int(0.6·(max_tokens − base_overhead − 200))` (with paging the returned
page is a slice of the fitting chunks, so its nonnegative per-chunk
estimates sum to no more) — while the reported `estimated_tokens`,
computed afterwards from the serialised response, is not compared
against `max_response_tokens` and can exceed it. -/
theorem C2_primary_selection_within_budget (cfg : ResponseConfig)
    (p r : List ContextChunk) (rel : List ContextRelationship) (page : ℤ)
    (ht : cfg.truncateContent = false) :
    estimateChunksTokens ((fitContentWithinBudget cfg p r rel page).1.getD []) ≤
      max (primaryBudgetOf cfg) 0 := by
  simp only [fitContentWithinBudget]
  split
  · simp [estimateChunksTokens]
  · cases hpg : cfg.enablePaging with
    | false =>
      simp only [hpg, Bool.false_eq_true, if_false, Option.getD_some]
      exact limitChunksToTokenBudget_sum_le cfg p (primaryBudgetOf cfg) ht
    | true =>
      simp only [hpg, if_true, Option.getD_some]
      exact le_trans
        (estimateChunksTokens_sublist _ _
          (paginateChunks_fst_sublist cfg p page (str "primary") (primaryBudgetOf cfg)))
        (limitChunksToTokenBudget_sum_le cfg p (primaryBudgetOf cfg) ht)

/-- C2 (witness), on the paging-enabled path. -/
theorem C2_primary_selection_within_budget_witness :
    estimateChunksTokens ((fitContentWithinBudget
      { maxTokens := 2000, enablePaging := true, pageSize := 10, truncateContent := false }
      [{ id := 1, sessionId := 0, content := str "hello", summary := [], embedding := none,
         relevance := 0, timestamp := 0, ttl := 0, ttlDeadline := none, importance := .low }]
      [] [] 1).1.getD []) ≤
      max (primaryBudgetOf
        { maxTokens := 2000, enablePaging := true, pageSize := 10, truncateContent := false }) 0 :=
  C2_primary_selection_within_budget _ _ [] [] 1 rfl

/-! ## Claim C3 -/

set_option maxRecDepth 400000 in
/-- C3: `truncated_content` is false even though the single primary
chunk's content was truncated.  With `MaxTokens = 790` a 1300-byte chunk
is cut to 652 bytes plus the `"... [truncated]"` marker, no list loses an
element, and the flag — computed only from the three list lengths —
stays false, contradicting both the claim and the field's own comment
(`TruncatedContent // Whether content was truncated`). -/
theorem C3_truncated_chunk_flag_false :
    (limitContextAwareRetrievalResponse
      { maxTokens := 790, enablePaging := false, pageSize := 10, truncateContent := true }
      [{ id := 1, sessionId := 0, content := List.replicate 1300 'a', summary := [],
         embedding := none, relevance := 0, timestamp := 0, ttl := 0, ttlDeadline := none,
         importance := .low }] [] [] (str "x") 0 0 1).tokenLimits.truncatedContent = false ∧
    (limitContextAwareRetrievalResponse
      { maxTokens := 790, enablePaging := false, pageSize := 10, truncateContent := true }
      [{ id := 1, sessionId := 0, content := List.replicate 1300 'a', summary := [],
         embedding := none, relevance := 0, timestamp := 0, ttl := 0, ttlDeadline := none,
         importance := .low }] [] [] (str "x") 0 0 1).primaryChunks =
      some [{ id := 1, sessionId := 0, content := List.replicate 652 'a' ++ str "... [truncated]",
              summary := [], embedding := none, relevance := 0, timestamp := 0, ttl := 0,
              ttlDeadline := none, importance := .low }] := by
  refine ⟨by decide, by decide⟩

/-! ## Claim C6 -/

/-- C6 (counterexample): retrieval with an empty query does not return an
empty result — it fails with an embedding error, because
`GenerateEmbedding` rejects empty content before the session is even
scanned. -/
theorem C6_empty_query_retrieval_errors :
    retrieveContext (fun _ => [1]) (fun _ _ => 0) 0
      [{ id := 1, sessionId := 0, content := str "stored", summary := [], embedding := some [1],
         relevance := 1/2, timestamp := 0, ttl := 0, ttlDeadline := none, importance := .medium }]
      [] 5 = .error .embedding := rfl

/-- C6 (amended): chunking the empty string returns an empty sequence and
summarizing the empty string returns an empty summary, both without
error; retrieval with an empty query, however, fails with an embedding
error, while retrieval with a non-empty query over a session with no
chunks returns an empty result without error. -/
theorem C6_empty_input_handling (cfg : ChunkerConfig) (maxSize : ℤ)
    (longPath : Str → ℤ → SummaryResult) (maxLength : ℤ)
    (encode : Str → List ℚ) (cossim : List ℚ → Option (List ℚ) → ℚ) (now : ℚ)
    (query : Str) (maxChunks : ℕ) (hq : query ≠ []) :
    chunkContent cfg [] maxSize = [] ∧
    summarizeContentWithInfo longPath [] maxLength = {} ∧
    retrieveContext encode cossim now [] query maxChunks = .ok { chunks := [], totalScore := 0 } := by
  refine ⟨rfl, rfl, ?_⟩
  simp only [retrieveContext, generateEmbedding, if_neg hq]
  rfl

/-- C6 (witness). -/
theorem C6_empty_input_handling_witness :
    chunkContent defaultChunkerConfig [] 1024 = [] ∧
    summarizeContentWithInfo (fun _ _ => {}) [] 300 = {} ∧
    retrieveContext (fun _ => [1]) (fun _ _ => 0) 0 [] (str "q") 5 =
      .ok { chunks := [], totalScore := 0 } :=
  C6_empty_input_handling defaultChunkerConfig 1024 (fun _ _ => {}) 300
    (fun _ => [1]) (fun _ _ => 0) 0 (str "q") 5 (by decide)

/-! ## Claim C7 -/

/-- C7 (counterexample): a summarization failure inside `store_context`
does not degrade to storing the raw chunk — the call aborts with a
summarization error and nothing is stored. -/
theorem C7_summarizer_failure_aborts_store :
    storeContext (fun c => .ok [c])
      (fun c => if c = [] then .error .embedding else .ok [1])
      (fun _ _ => .error .summarization)
      1024 24 0 7 3 (str "hello world") .high = .error .summarization := rfl

/-- C7 (amended): when chunking and embedding succeed but summarization
fails, `store_context` propagates the failure as a summarization error
instead of succeeding — the error return happens before `StoreChunk`, so
no chunk (raw or otherwise) is stored and no chunk id is returned. -/
theorem C7_summarization_error_propagates
    (chunkF : Str → Except ErrCode (List Str))
    (embedF : Str → Except ErrCode (List ℚ))
    (sumF : Str → ℤ → Except ErrCode Str)
    (chunkSize : ℤ) (ttlDefault now : ℚ) (newId sessionId : ℕ)
    (content : Str) (importance : Importance)
    (cs : List Str) (e : List ℚ) (ε : ErrCode)
    (hc : chunkF content = .ok cs)
    (he : embedF (combineChunks chunkSize cs) = .ok e)
    (hs : sumF (combineChunks chunkSize cs) (chunkSize / 3) = .error ε) :
    storeContext chunkF embedF sumF chunkSize ttlDefault now newId sessionId content importance =
      .error .summarization := by
  simp only [storeContext, hc, he, hs]

/-- C7 (witness). -/
theorem C7_summarization_error_propagates_witness :
    storeContext (fun c => .ok [c])
      (fun c => if c = [] then .error .embedding else .ok [1])
      (fun _ _ => .error .summarization)
      1024 24 0 7 3 (str "degraded path") .medium = .error .summarization :=
  C7_summarization_error_propagates _ _ _ 1024 24 0 7 3 (str "degraded path") .medium
    [str "degraded path"] [1] .summarization rfl rfl rfl

/-! ## Claim C8 -/

set_option maxRecDepth 20000 in
/-- C8 (counterexample): a text whose single sentence is longer than
`max_size` is emitted as one chunk exceeding `max_size` — chunking
`"abcdefghijkl"` (12 bytes, no sentence boundary) with `max_size = 10`
yields one 12-byte chunk. -/
theorem C8_oversized_sentence_emitted_whole :
    chunkContentWithInfo defaultChunkerConfig (str "abcdefghijkl") 10 =
      [{ content := str "abcdefghijkl", startOffset := 0, endOffset := 12, chunkIndex := 0,
         contentType := .text, semanticScore := 3/10 }] ∧
    (10 : ℤ) < (str "abcdefghijkl").length := by
  refine ⟨by decide, by decide⟩

/-! ## Claim C9 -/

theorem find?_eq_head?_filter (p : α → Bool) (l : List α) :
    l.find? p = (l.filter p).head? := by
  induction l with
  | nil => rfl
  | cons x t ih =>
    by_cases h : p x
    · simp [List.find?_cons, List.filter_cons, h]
    · simp only [List.find?_cons, List.filter_cons]
      rw [if_neg (by simp [h]), ih]
      simp [h]

theorem applyFirstBoost_perm_of_at_most_one (content : Str) (base : ℚ)
    (order table : List (Str × ℚ)) (hperm : order.Perm table)
    (hone : table.countP (fun kb => containsSub (toLowerStr content) kb.1) ≤ 1) :
    applyFirstBoost content order base = applyFirstBoost content table base := by
  unfold applyFirstBoost
  rw [find?_eq_head?_filter, find?_eq_head?_filter]
  have hpf := hperm.filter (fun kb => containsSub (toLowerStr content) kb.1)
  rw [List.countP_eq_length_filter] at hone
  rcases hft : table.filter (fun kb => containsSub (toLowerStr content) kb.1) with _ | ⟨a, _ | ⟨b, t⟩⟩
  · rw [hft] at hpf
    rw [List.Perm.eq_nil hpf, hft]
  · rw [hft] at hpf
    rw [List.perm_singleton.mp hpf, hft]
  · rw [hft] at hone
    simp at hone

theorem calculateTaskAwareRelevance_perm (now : ℚ) (order table : List (Str × ℚ))
    (c : ContextChunk) (hperm : order.Perm table)
    (hone : table.countP (fun kb => containsSub (toLowerStr c.content) kb.1) ≤ 1) :
    calculateTaskAwareRelevance now order c = calculateTaskAwareRelevance now table c := by
  unfold calculateTaskAwareRelevance
  rw [applyFirstBoost_perm_of_at_most_one c.content c.relevance order table hperm hone]

/-- C9 (counterexample): the ranking of `context_aware_retrieve` is not a
function of the store state alone — the task-boost loop iterates a Go
map, whose iteration order is randomised per run, and a chunk containing
two boost keywords with different factors is scored differently under
two legitimate iteration orders, flipping the returned order.  The first
conjunct certifies the alternative order is a permutation of the
development boost table. -/
theorem C9_boost_order_changes_ranking :
    ([(str "method", 12/10), (str "implementation", 13/10), (str "API", 11/10),
      (str "code", 11/10), (str "function", 12/10)] : List (Str × ℚ)).Perm
        (taskBoostTable TaskType.development) ∧
    contextAwareRank 100 (taskBoostTable TaskType.development)
      [{ id := 1, sessionId := 0, content := str "implementation of function", summary := [],
         embedding := some [1], relevance := 1/2, timestamp := 0, ttl := 0,
         ttlDeadline := none, importance := .medium },
       { id := 2, sessionId := 0, content := str "method cleanup", summary := [],
         embedding := some [1], relevance := 13/25, timestamp := 0, ttl := 0,
         ttlDeadline := none, importance := .medium }] ≠
    contextAwareRank 100
      [(str "method", 12/10), (str "implementation", 13/10), (str "API", 11/10),
       (str "code", 11/10), (str "function", 12/10)]
      [{ id := 1, sessionId := 0, content := str "implementation of function", summary := [],
         embedding := some [1], relevance := 1/2, timestamp := 0, ttl := 0,
         ttlDeadline := none, importance := .medium },
       { id := 2, sessionId := 0, content := str "method cleanup", summary := [],
         embedding := some [1], relevance := 13/25, timestamp := 0, ttl := 0,
         ttlDeadline := none, importance := .medium }] := by
  refine ⟨by decide, by decide⟩

/-- C9 (amended): the ranked retrieval is order-stable across runs only
when every candidate chunk's lowercased content contains at most one
keyword of the task's boost table: the ranking is then independent of
the boost map's (randomised) iteration order.  When a chunk matches two
keywords with different factors, the applied boost — and hence the
returned order — depends on the iteration order, so two runs over an
identical store may return different orders. -/
theorem C9_rank_stable_when_at_most_one_keyword (now : ℚ) (t : TaskType)
    (order : List (Str × ℚ)) (chunks : List ContextChunk)
    (hperm : order.Perm (taskBoostTable t))
    (hone : ∀ c ∈ chunks,
      (taskBoostTable t).countP (fun kb => containsSub (toLowerStr c.content) kb.1) ≤ 1) :
    contextAwareRank now order chunks = contextAwareRank now (taskBoostTable t) chunks := by
  unfold contextAwareRank
  have hmap : chunks.map (fun c => { c with relevance := calculateTaskAwareRelevance now order c }) =
      chunks.map (fun c => { c with relevance := calculateTaskAwareRelevance now (taskBoostTable t) c }) := by
    refine List.map_congr_left ?_
    intro c hc
    rw [calculateTaskAwareRelevance_perm now order (taskBoostTable t) c hperm (hone c hc)]
  rw [hmap]

/-- C9 (witness). -/
theorem C9_rank_stable_when_at_most_one_keyword_witness :
    contextAwareRank 100
      [(str "bug", 13/10), (str "error", 13/10), (str "issue", 12/10),
       (str "problem", 12/10), (str "fix", 11/10)]
      [{ id := 1, sessionId := 0, content := str "an error occurred", summary := [],
         embedding := some [1], relevance := 1/2, timestamp := 0, ttl := 0,
         ttlDeadline := none, importance := .medium }] =
    contextAwareRank 100 (taskBoostTable TaskType.debugging)
      [{ id := 1, sessionId := 0, content := str "an error occurred", summary := [],
         embedding := some [1], relevance := 1/2, timestamp := 0, ttl := 0,
         ttlDeadline := none, importance := .medium }] :=
  C9_rank_stable_when_at_most_one_keyword 100 TaskType.debugging _ _
    (by decide) (by decide)

theorem trimSpace_length_le (l : Str) : (trimSpace l).length ≤ l.length := by
  unfold trimSpace
  rw [List.length_reverse]
  refine le_trans (List.Sublist.length_le (List.dropWhile_sublist _)) ?_
  rw [List.length_reverse]
  exact List.Sublist.length_le (List.dropWhile_sublist _)

theorem getOverlap_length_le (chunk : Str) (o : ℕ) : (getOverlap chunk o).length ≤ o := by
  simp only [getOverlap]
  split
  · simp
  · rename_i hout
    push_neg at hout
    split
    · rename_i s hs
      split at hs
      · split at hs
        · rename_i h2
          cases hs
          exact h2
        · cases hs
      · cases hs
    · simp only [List.length_drop]
      omega

/-- Largest sentence byte length produced by the chunker's sentence
splitter on this content. -/
def maxSentLen (content : Str) : ℕ :=
  ((splitIntoSentences content).map List.length).foldr max 0

theorem le_foldr_max (l : List ℕ) (x : ℕ) (hx : x ∈ l) : x ≤ l.foldr max 0 := by
  induction l with
  | nil => cases hx
  | cons y t ih =>
    rcases List.mem_cons.mp hx with h | h
    · subst h; exact le_max_left _ _
    · exact le_trans (ih h) (le_max_right _ _)

theorem chunkTextGo_content_le (cfg : ChunkerConfig) (maxSize : ℤ) (L : ℕ) :
    ∀ (sentences : List Str) (current : Str) (off : ℤ) (idx : ℕ),
      (∀ s ∈ sentences, s.length ≤ L) →
      (current.length : ℤ) ≤ max maxSize ((cfg.overlapSize : ℤ) + L) →
      ∀ c ∈ chunkTextGo cfg maxSize sentences current off idx,
        (c.content.length : ℤ) ≤ max maxSize ((cfg.overlapSize : ℤ) + L) := by
  intro sentences
  induction sentences with
  | nil =>
    intro current off idx _ hcur c hc
    simp only [chunkTextGo] at hc
    split at hc
    · rcases List.mem_singleton.mp hc with rfl
      simp only
      exact le_trans (by exact_mod_cast Int.ofNat_le.mpr (trimSpace_length_le current)) hcur
    · cases hc
  | cons s rest ih =>
    intro current off idx hs hcur c hc
    have hsL : s.length ≤ L := hs s (List.mem_cons_self s rest)
    have hrest : ∀ x ∈ rest, x.length ≤ L := fun x hx => hs x (List.mem_cons_of_mem s hx)
    simp only [chunkTextGo] at hc
    split at hc
    · rcases List.mem_cons.mp hc with rfl | hmem
      · simp only
        exact le_trans (by exact_mod_cast Int.ofNat_le.mpr (trimSpace_length_le current)) hcur
      · refine ih _ _ _ hrest ?_ c hmem
        have hov := getOverlap_length_le current cfg.overlapSize
        simp only [List.length_append]
        push_cast
        omega
    · rename_i hno
      by_cases hcure : current = []
      · subst hcure
        refine ih _ _ _ hrest ?_ c hc
        simp only [List.nil_append]
        have : (s.length : ℤ) ≤ (cfg.overlapSize : ℤ) + L := by push_cast; omega
        exact le_trans this (le_max_right _ _)
      · have hfit : (current.length : ℤ) + s.length ≤ maxSize := by
          by_contra hgt
          exact hno ⟨by omega, hcure⟩
        refine ih _ _ _ hrest ?_ c hc
        simp only [List.length_append]
        refine le_trans ?_ (le_max_left _ _)
        push_cast
        omega

theorem chunkTextGo_indexes (cfg : ChunkerConfig) (maxSize : ℤ) :
    ∀ (sentences : List Str) (current : Str) (off : ℤ) (idx : ℕ),
      (chunkTextGo cfg maxSize sentences current off idx).map ChunkInfo.chunkIndex =
        List.range' idx (chunkTextGo cfg maxSize sentences current off idx).length := by
  intro sentences
  induction sentences with
  | nil =>
    intro current off idx
    simp only [chunkTextGo]
    split <;> simp [List.range']
  | cons s rest ih =>
    intro current off idx
    simp only [chunkTextGo]
    split
    · simp only [List.map_cons, List.length_cons, List.range'_succ]
      rw [ih]
    · exact ih _ _ _

/-- C8 (amended): on text-strategy content the chunker emits chunks with
strictly increasing indexes from 0, and every chunk's content is at most
`max(max_size, overlap_size + longest sentence length)` bytes; the
claimed uniform `max_size` bound fails whenever a single sentence (plus
carried overlap) exceeds `max_size` — such a sentence is emitted whole. -/
theorem C8_text_chunks_indexed_and_bounded (cfg : ChunkerConfig) (content : Str) (maxSize : ℤ)
    (htext : detectContentType content = .text) (hne : content ≠ []) :
    (chunkContentWithInfo cfg content maxSize).map ChunkInfo.chunkIndex =
      List.range (chunkContentWithInfo cfg content maxSize).length ∧
    ∀ c ∈ chunkContentWithInfo cfg content maxSize,
      (c.content.length : ℤ) ≤ max maxSize ((cfg.overlapSize : ℤ) + maxSentLen content) := by
  have hunf : chunkContentWithInfo cfg content maxSize = chunkText cfg content maxSize := by
    simp [chunkContentWithInfo, hne, htext]
  rw [hunf]
  unfold chunkText
  split
  · rename_i hsmall
    refine ⟨by rw [List.range_eq_range']; simp [List.map_cons, List.range'_succ], ?_⟩
    intro c hc
    rcases List.mem_singleton.mp hc with rfl
    exact le_trans hsmall (le_max_left _ _)
  · constructor
    · rw [List.range_eq_range']
      exact chunkTextGo_indexes cfg maxSize _ [] 0 0
    · refine chunkTextGo_content_le cfg maxSize (maxSentLen content) _ [] 0 0 ?_ ?_
      · intro s hsm
        exact le_foldr_max _ _ (List.mem_map_of_mem List.length hsm)
      · refine le_trans ?_ (le_max_right _ _)
        simp only [List.length_nil, Nat.cast_zero]
        positivity

/-- C8 (witness). -/
theorem C8_text_chunks_indexed_and_bounded_witness :
    (chunkContentWithInfo defaultChunkerConfig (str "ab. cd") 10).map ChunkInfo.chunkIndex =
      List.range (chunkContentWithInfo defaultChunkerConfig (str "ab. cd") 10).length ∧
    ∀ c ∈ chunkContentWithInfo defaultChunkerConfig (str "ab. cd") 10,
      (c.content.length : ℤ) ≤
        max 10 ((defaultChunkerConfig.overlapSize : ℤ) + maxSentLen (str "ab. cd")) :=
  C8_text_chunks_indexed_and_bounded defaultChunkerConfig (str "ab. cd") 10 (by decide) (by decide)

/-! ## Claim C10 -/

/-- The candidate list a nil-query scan ranks: non-expired rows of the
session, rebuilt in memory, that carry an embedding. -/
def scanCandidates (now : ℚ) (rows : List ContextChunk) : List ContextChunk :=
  ((rows.filter (rowVisible now)).map (rowToChunk now)).filter (fun c => c.embedding ≠ none)

theorem swapInnerF_const (fuel : ℕ) :
    ∀ (arr : Array (ContextChunk × ℚ)) (i j : ℕ), (∀ x ∈ arr, x.2 = 0) →
      swapInnerF fuel arr i j = arr := by
  induction fuel with
  | zero => intro arr i j _; rfl
  | succ n ih =>
    intro arr i j hall
    simp only [swapInnerF]
    split
    · rename_i hj
      have hz : ∀ k : ℕ, (arr[k]!).2 = 0 := by
        intro k
        by_cases hk : k < arr.size
        · rw [getElem!_pos arr k hk]
          exact hall _ (Array.getElem_mem hk)
        · rw [getElem!_neg arr k hk]
          rfl
      rw [if_neg (by rw [hz j, hz i]; exact lt_irrefl 0)]
      exact ih arr i (j + 1) hall
    · rfl

theorem swapOuterF_const (fuel : ℕ) :
    ∀ (arr : Array (ContextChunk × ℚ)) (i : ℕ), (∀ x ∈ arr, x.2 = 0) →
      swapOuterF fuel arr i = arr := by
  induction fuel with
  | zero => intro arr i _; rfl
  | succ n ih =>
    intro arr i hall
    simp only [swapOuterF]
    split
    · rw [swapInner, swapInnerF_const _ _ _ _ hall]
      exact ih arr (i + 1) hall
    · rfl

/-- With a nil query embedding every similarity is 0, the swap sort never
swaps, and the scan is exactly the first `maxResults` candidates. -/
theorem searchByEmbeddingNil_eq_take (now : ℚ) (rows : List ContextChunk) (m : ℕ) :
    searchByEmbeddingNil now rows m = (scanCandidates now rows).take m := by
  simp only [searchByEmbeddingNil, scanCandidates, swapOuter]
  have hall : ∀ x ∈ (((rows.filter (rowVisible now)).map (rowToChunk now)).filter
      (fun c => c.embedding ≠ none)).map
        (fun c => (c, cosineSimilarityNil (c.embedding.getD []))), x.2 = 0 := by
    intro x hx
    rcases List.mem_map.mp hx with ⟨c, _, rfl⟩
    rfl
  have hallArr : ∀ x ∈ (((rows.filter (rowVisible now)).map (rowToChunk now)).filter
      (fun c => c.embedding ≠ none)).map
        (fun c => (c, cosineSimilarityNil (c.embedding.getD []))) |>.toArray, x.2 = 0 := by
    intro x hx
    refine hall x ?_
    rw [Array.mem_def, Array.toList_toArray] at hx
    exact hx
  rw [swapOuterF_const _ _ _ hallArr]
  rw [Array.toList_toArray]
  rw [← List.map_take, List.map_map]
  rw [show (Prod.fst ∘ fun c : ContextChunk => (c, cosineSimilarityNil (c.embedding.getD []))) = id from rfl,
    List.map_id]

theorem scanCandidates_ids_sublist (now : ℚ) (rows : List ContextChunk) :
    ((scanCandidates now rows).map ContextChunk.id).Sublist (rows.map ContextChunk.id) := by
  unfold scanCandidates
  have h1 : ((rows.filter (rowVisible now)).map (rowToChunk now)).map ContextChunk.id =
      (rows.filter (rowVisible now)).map ContextChunk.id := by
    rw [List.map_map]
    refine List.map_congr_left ?_
    intro c _
    rfl
  refine List.Sublist.trans (List.Sublist.map _ (List.filter_sublist _)) ?_
  rw [h1]
  exact List.Sublist.map _ (List.filter_sublist _)

/-- C10: `retrieve_context`, `cleanup_session` and `smart_memory_manager`
all fetch their working set with `SearchByEmbedding(…, nil, 1000)`.  For
a session whose scan yields more than 1000 candidate chunks (distinct
ids assumed): the working set is exactly the first 1000 candidates;
every id returned by retrieval comes from that capped set; cleanup and
smart memory management report `remaining = 1000 − removed`, a count of
the capped set rather than the whole session; and a candidate beyond the
cutoff is invisible — its id is neither returned nor eligible for
removal. -/
theorem C10_operations_capped_at_1000 (now : ℚ) (rows : List ContextChunk)
    (encode : Str → List ℚ) (cossim : List ℚ → Option (List ℚ) → ℚ)
    (query : Str) (maxChunks : ℕ) (strategy : CleanupStrategy)
    (phase : SessionPhase) (mstrategy : MemoryStrategy) (preserve : Bool)
    (hbig : 1000 < (scanCandidates now rows).length)
    (hnodup : (rows.map ContextChunk.id).Nodup) :
    searchByEmbeddingNil now rows 1000 = (scanCandidates now rows).take 1000 ∧
    (∀ res, retrieveContext encode cossim now rows query maxChunks = .ok res →
      ∀ c ∈ res.chunks, c.id ∈ (searchByEmbeddingNil now rows 1000).map ContextChunk.id) ∧
    (cleanupSession now rows strategy).remainingChunks =
      1000 - (cleanupSession now rows strategy).chunksRemoved ∧
    (applySmartMemoryStrategy now rows phase mstrategy preserve).chunksRemaining =
      1000 - (applySmartMemoryStrategy now rows phase mstrategy preserve).chunksCleaned ∧
    (∀ c ∈ (scanCandidates now rows).drop 1000,
      c.id ∉ (searchByEmbeddingNil now rows 1000).map ContextChunk.id) := by
  have heq := searchByEmbeddingNil_eq_take now rows 1000
  have hlen : (searchByEmbeddingNil now rows 1000).length = 1000 := by
    rw [heq, List.length_take]
    omega
  have hne : searchByEmbeddingNil now rows 1000 ≠ [] := by
    intro h
    rw [h] at hlen
    simp at hlen
  refine ⟨heq, ?_, ?_, ?_, ?_⟩
  · intro res hres c hc
    unfold retrieveContext at hres
    rcases hq : generateEmbedding encode query with e | qe
    · rw [hq] at hres; cases hres
    · rw [hq] at hres
      simp only [if_neg hne] at hres
      cases hres
      simp only at hc
      rcases List.mem_map.mp hc with ⟨p, hp, rfl⟩
      have hp2 : p ∈ sortBy (fun a b => a.2 > b.2)
          ((searchByEmbeddingNil now rows 1000).map
            (fun c => (c, calculateRetrievalScore now (cossim qe c.embedding) c))) :=
        List.take_subset _ _ hp
      have hp3 := (sortBy_perm _ _).mem_iff.mp hp2
      rcases List.mem_map.mp hp3 with ⟨c0, hc0, rfl⟩
      simpa using List.mem_map_of_mem ContextChunk.id hc0
  · simp only [cleanupSession, if_neg hne]
    rw [hlen]
    push_cast
    ring
  · have h1000 := hlen
    simp only [applySmartMemoryStrategy]
    rw [h1000]
    push_cast
    ring
  · intro c hcdrop hcmem
    rw [heq] at hcmem
    have hnd : ((scanCandidates now rows).map ContextChunk.id).Nodup :=
      (scanCandidates_ids_sublist now rows).nodup hnodup
    rw [← List.take_append_drop 1000 (scanCandidates now rows), List.map_append] at hnd
    exact (List.nodup_append.mp hnd).2.2 hcmem (List.mem_map_of_mem ContextChunk.id hcdrop)

/-- A visible, embedded row used by the C10 witness session. -/
def c10row (i : ℕ) : ContextChunk :=
  { id := i, sessionId := 0, content := [], summary := [], embedding := some [1],
    relevance := 0, timestamp := 0, ttl := 0, ttlDeadline := none, importance := .low }

/-- A 1001-chunk session for the C10 witness. -/
def c10rows : List ContextChunk := (List.range 1001).map c10row

theorem c10rows_scan : scanCandidates 0 c10rows = c10rows := by
  unfold scanCandidates
  have h1 : List.filter (rowVisible 0) c10rows = c10rows := by
    refine List.filter_eq_self.mpr ?_
    intro a ha
    rcases List.mem_map.mp ha with ⟨i, _, rfl⟩
    rfl
  have h2 : List.map (rowToChunk 0) c10rows = c10rows := by
    refine List.map_congr_left ?_ |>.trans (List.map_id _)
    intro a ha
    rcases List.mem_map.mp ha with ⟨i, _, rfl⟩
    rfl
  have h3 : List.filter (fun c => c.embedding ≠ none) c10rows = c10rows := by
    refine List.filter_eq_self.mpr ?_
    intro a ha
    rcases List.mem_map.mp ha with ⟨i, _, rfl⟩
    rfl
  rw [h1, h2, h3]

theorem c10rows_big : 1000 < (scanCandidates 0 c10rows).length := by
  rw [c10rows_scan]
  simp [c10rows]

theorem c10rows_nodup : (c10rows.map ContextChunk.id).Nodup := by
  unfold c10rows
  rw [List.map_map]
  have : (ContextChunk.id ∘ c10row) = fun i => i := rfl
  rw [this]
  simpa using List.nodup_range 1001

/-- C10 (witness). -/
theorem C10_operations_capped_at_1000_witness :
    searchByEmbeddingNil 0 c10rows 1000 = (scanCandidates 0 c10rows).take 1000 ∧
    (∀ res, retrieveContext (fun _ => [1]) (fun _ _ => 0) 0 c10rows (str "q") 5 = .ok res →
      ∀ c ∈ res.chunks, c.id ∈ (searchByEmbeddingNil 0 c10rows 1000).map ContextChunk.id) ∧
    (cleanupSession 0 c10rows CleanupStrategy.lru).remainingChunks =
      1000 - (cleanupSession 0 c10rows CleanupStrategy.lru).chunksRemoved ∧
    (applySmartMemoryStrategy 0 c10rows SessionPhase.testing MemoryStrategy.balanced true).chunksRemaining =
      1000 - (applySmartMemoryStrategy 0 c10rows SessionPhase.testing MemoryStrategy.balanced true).chunksCleaned ∧
    (∀ c ∈ (scanCandidates 0 c10rows).drop 1000,
      c.id ∉ (searchByEmbeddingNil 0 c10rows 1000).map ContextChunk.id) :=
  C10_operations_capped_at_1000 0 c10rows (fun _ => [1]) (fun _ _ => 0) (str "q") 5
    CleanupStrategy.lru SessionPhase.testing MemoryStrategy.balanced true
    c10rows_big c10rows_nodup

end Aimem
